import Mathlib

/-!
# Donor registration service: validation, normalisation and lookup

A shallow embedding of `src/server.js` (the validator `validatePayload`, the
`POST /api/donations` and `GET /api/donations` handlers) and of the parallel
lookup handler of `src/backend/server.js`, together with the JavaScript
operations these functions rely on.

JavaScript values are modelled as far as the handlers can observe them:
strings are sequences of UTF-16 code units, numbers are exact rationals
extended with `NaN` and the two infinities (every IEEE double is one of
these), and a method call on a value of the wrong type raises a `TypeError`,
modelled with `Except`.
-/

namespace BloodDonation

/-! ## JavaScript strings -/

/-- A JavaScript string is a sequence of UTF-16 code units. -/
abbrev JsString := List Nat

/-- UTF-16 encoding of one Unicode scalar value. -/
def utf16 (c : Char) : List Nat :=
  if c.toNat < 0x10000 then [c.toNat]
  else [0xD800 + (c.toNat - 0x10000) / 0x400, 0xDC00 + (c.toNat - 0x10000) % 0x400]

/-- The JavaScript string written by a source literal. -/
def js (s : String) : JsString := s.toList.flatMap utf16

/-- Code units removed by `String.prototype.trim` (and skipped by `Number` on a
string): the ECMAScript WhiteSpace and LineTerminator code points. -/
def isJsWhiteSpace (u : Nat) : Bool :=
  u == 0x09 || u == 0x0A || u == 0x0B || u == 0x0C || u == 0x0D || u == 0x20 ||
  u == 0xA0 || u == 0x1680 || (0x2000 ≤ u && u ≤ 0x200A) || u == 0x2028 ||
  u == 0x2029 || u == 0x202F || u == 0x205F || u == 0x3000 || u == 0xFEFF

/-- The method `String.prototype.trim`: white space is removed from both ends. -/
def trim (s : JsString) : JsString :=
  ((s.dropWhile isJsWhiteSpace).reverse.dropWhile isJsWhiteSpace).reverse

/-- Upper-casing of one code unit. Only the ASCII letters are mapped: the full
Unicode mapping of `toUpperCase` differs on non-ASCII characters only, and no
non-ASCII character is mapped to a string made of the characters `A`, `B`, `O`,
`+`, `-` alone, so membership of the result in `BLOOD_GROUPS` is unaffected. -/
def upperUnit (u : Nat) : Nat := if 97 ≤ u ∧ u ≤ 122 then u - 32 else u

/-- The method `String.prototype.toUpperCase` (see `upperUnit`). -/
def toUpperCase (s : JsString) : JsString := s.map upperUnit

/-- The regular-expression class `\d`: the ASCII digits. -/
def isDigit (u : Nat) : Bool := 48 ≤ u && u ≤ 57

/-- A string matches `/^\d{10}$/` when it is exactly ten ASCII digits (without
the `m` flag `$` matches at the very end of the input only). -/
def matchesTenDigits (s : JsString) : Bool := s.length == 10 && s.all isDigit

/-! ## JavaScript numbers -/

/-- A JavaScript number: `NaN`, an infinity, or a finite value. Finite values are
kept as exact rationals; both zeros are `fin 0`. -/
inductive JsNum where
  | nan
  | posInf
  | negInf
  | fin (q : ℚ)
  deriving DecidableEq

/-- The test `Number.isNaN`. -/
def JsNum.isNaN : JsNum → Bool
  | .nan => true
  | _ => false

/-- The relational operator `a < b` on numbers: false as soon as one side is `NaN`. -/
def JsNum.lt : JsNum → JsNum → Bool
  | .nan, _ => false
  | _, .nan => false
  | .posInf, _ => false
  | _, .negInf => false
  | .negInf, _ => true
  | _, .posInf => true
  | .fin a, .fin b => decide (a < b)

/-- Unary minus. -/
def JsNum.neg : JsNum → JsNum
  | .nan => .nan
  | .posInf => .negInf
  | .negInf => .posInf
  | .fin q => .fin (-q)

/-- Value of a string of decimal digits. -/
def decimalValue (s : JsString) : Nat := s.foldl (fun acc u => acc * 10 + (u - 48)) 0

/-- Value of one digit in the given base, if the code unit is such a digit. -/
def digitVal (base u : Nat) : Option Nat :=
  let d : Option Nat :=
    if 48 ≤ u ∧ u ≤ 57 then some (u - 48)
    else if 97 ≤ u ∧ u ≤ 102 then some (u - 87)
    else if 65 ≤ u ∧ u ≤ 70 then some (u - 55)
    else none
  d.bind fun v => if v < base then some v else none

/-- A non-empty string of digits of the given base. -/
def parseDigits (base : Nat) (s : JsString) : Option Nat :=
  if s = [] then none
  else s.foldlM (fun acc u => (digitVal base u).map fun v => acc * base + v) 0

/-- Largest `e` with `2 ^ e ≤ m` (and `0` for `m = 0`); the first argument bounds
the number of halvings. -/
def floorLog2Aux : Nat → Nat → Nat
  | 0, _ => 0
  | fuel + 1, m => if m < 2 then 0 else floorLog2Aux fuel (m / 2) + 1

/-- Largest `e` with `2 ^ e ≤ n` (and `0` for `n = 0`). -/
def floorLog2 (n : Nat) : Nat := floorLog2Aux n n

/-- The number value of the non-negative rational `n / d`: the nearest IEEE 754
double, a tie going to the even significand; `Infinity` when the rounded value
is `2 ^ 1024` or more. With `e` the binary exponent of `n / d`, not below the
least normal exponent, the value is rounded to a multiple of `2 ^ (e - 52)`. -/
def roundToDouble (n d : Nat) : JsNum :=
  if n = 0 ∨ d = 0 then JsNum.fin 0
  else
    let e0 : Int := (floorLog2 n : Int) - (floorLog2 d : Int)
    let e : Int := if n * 2 ^ (-e0).toNat < d * 2 ^ e0.toNat then e0 - 1 else e0
    let k : Int := max e (-1022) - 52
    let num := n * 2 ^ (-k).toNat
    let den := d * 2 ^ k.toNat
    let q := num / den
    let r := num % den
    let m :=
      if 2 * r < den then q
      else if den < 2 * r then q + 1
      else if q % 2 = 0 then q else q + 1
    if 1024 ≤ e ∨ (e = 1023 ∧ m = 2 ^ 53) then JsNum.posInf
    else JsNum.fin (mkRat (m * 2 ^ k.toNat) (2 ^ (-k).toNat))

/-- The forms `0x…`, `0o…`, `0b…` (either case of the letter, no sign). -/
def parseNonDecimal (s : JsString) : Option JsNum :=
  match s with
  | 48 :: p :: ds =>
    let base : Option Nat :=
      if p = 120 ∨ p = 88 then some 16
      else if p = 111 ∨ p = 79 then some 8
      else if p = 98 ∨ p = 66 then some 2
      else none
    base.bind fun b => (parseDigits b ds).map fun n => roundToDouble n 1
  | _ => none

/-- Mantissa `digits`, `digits.`, `digits.digits` or `.digits`: the value of all
its digits and the number of digits after the point. -/
def parseMantissa (s : JsString) : Option (Nat × Nat) :=
  let ip := s.takeWhile (fun u => u != 46)
  match s.dropWhile (fun u => u != 46) with
  | [] => if ip ≠ [] ∧ ip.all isDigit then some (decimalValue ip, 0) else none
  | _ :: fp =>
    if ip.all isDigit ∧ fp.all isDigit ∧ (ip ≠ [] ∨ fp ≠ []) then
      some (decimalValue (ip ++ fp), fp.length)
    else none

/-- Exponent part after `e`/`E`: an optional sign and at least one digit. -/
def parseExponent (s : JsString) : Option Int :=
  match s with
  | 43 :: ds => if ds ≠ [] ∧ ds.all isDigit then some (decimalValue ds : Int) else none
  | 45 :: ds => if ds ≠ [] ∧ ds.all isDigit then some (-(decimalValue ds : Int)) else none
  | ds => if ds ≠ [] ∧ ds.all isDigit then some (decimalValue ds : Int) else none

/-- An unsigned decimal literal or `Infinity`; digits `d` with `k` of them after
the point and exponent `e` denote `d * 10 ^ (e - k)`, rounded to a double. -/
def parseUnsignedDecimal (s : JsString) : Option JsNum :=
  if s = js "Infinity" then some JsNum.posInf
  else
    let m := s.takeWhile (fun u => u != 101 && u != 69)
    match s.dropWhile (fun u => u != 101 && u != 69) with
    | [] => (parseMantissa m).map fun dk => roundToDouble dk.1 (10 ^ dk.2)
    | _ :: x =>
      (parseMantissa m).bind fun dk =>
        (parseExponent x).map fun e =>
          roundToDouble (dk.1 * 10 ^ (e - (dk.2 : Int)).toNat) (10 ^ ((dk.2 : Int) - e).toNat)

/-- A decimal literal with an optional sign. -/
def parseStrDecimal (s : JsString) : Option JsNum :=
  match s with
  | 43 :: t => parseUnsignedDecimal t
  | 45 :: t => (parseUnsignedDecimal t).map JsNum.neg
  | t => parseUnsignedDecimal t

/-- The conversion `Number(s)` of a string `s` (ECMAScript StringToNumber): surrounding white
space is ignored, the empty string is `0`, a string that is no numeric literal
is `NaN`, and the value of a numeric literal is rounded to the nearest double. -/
def stringToNumber (s : JsString) : JsNum :=
  let t := trim s
  if t = [] then JsNum.fin 0
  else
    match parseNonDecimal t with
    | some n => n
    | none => (parseStrDecimal t).getD JsNum.nan

/-! ## JavaScript values -/

/-- The values a parsed JSON body can give to a field of the donor payload:
missing (`undefined`), `null`, a string or a number. -/
inductive JsVal where
  | undefined
  | null
  | str (s : JsString)
  | num (n : JsNum)
  deriving DecidableEq

/-- Truthiness (ToBoolean): `undefined`, `null`, `""`, `0` and `NaN` are falsy. -/
def JsVal.truthy : JsVal → Bool
  | .undefined => false
  | .null => false
  | .str s => !s.isEmpty
  | .num .nan => false
  | .num (.fin q) => decide (q ≠ 0)
  | .num _ => true

/-- The conversion `Number(v)` (ToNumber). -/
def JsVal.toNumber : JsVal → JsNum
  | .undefined => JsNum.nan
  | .null => JsNum.fin 0
  | .str s => stringToNumber s
  | .num n => n

/-- The method call `v.trim()`: only strings have the method. -/
def JsVal.callTrim : JsVal → Except String JsString
  | .str s => .ok (trim s)
  | .num _ => .error "TypeError: trim is not a function"
  | .undefined => .error "TypeError: cannot read properties of undefined"
  | .null => .error "TypeError: cannot read properties of null"

/-- The method call `v.toUpperCase()`: only strings have the method. -/
def JsVal.callToUpperCase : JsVal → Except String JsString
  | .str s => .ok (toUpperCase s)
  | .num _ => .error "TypeError: toUpperCase is not a function"
  | .undefined => .error "TypeError: cannot read properties of undefined"
  | .null => .error "TypeError: cannot read properties of null"

/-- The property read `v.length`: the number of code units of a string,
`undefined` on a number. -/
def JsVal.getLength : JsVal → Except String JsVal
  | .str s => .ok (.num (.fin s.length))
  | .num _ => .ok .undefined
  | .undefined => .error "TypeError: cannot read properties of undefined"
  | .null => .error "TypeError: cannot read properties of null"

/-- The call `/^\d{10}$/.test(v)`: the argument is converted to a string first.
A number prints as exactly ten digits when it is an integer from `10^9` to
`10^10 - 1`; every other number prints with a sign, a point, an exponent, letters
or another number of digits, and `undefined` and `null` print as words. -/
def testTenDigits : JsVal → Bool
  | .str s => matchesTenDigits s
  | .num (.fin q) => decide (q.den = 1 ∧ (10 : ℚ) ^ 9 ≤ q ∧ q < (10 : ℚ) ^ 10)
  | .num _ => false
  | .undefined => false
  | .null => false

/-! ## The validator of `src/server.js` -/

/-- A request body: the value found under each field name (`undefined` when the
field is missing). -/
abbrev Payload := String → JsVal

/-- The constant `BLOOD_GROUPS`. -/
def BLOOD_GROUPS : List JsString :=
  [js "A+", js "A-", js "B+", js "B-", js "O+", js "O-", js "AB+", js "AB-"]

/-- The local constant `requiredFields` of `validatePayload`. -/
def requiredFields : List String :=
  ["name", "age", "phoneNumber", "bloodGroup", "country", "state", "district", "city"]

/-- Number of matches of `/[\uD800-\uDBFF][\uDC00-\uDFFF]/g`: the surrogate pairs
of a string, read from left to right. -/
def countSurrogatePairs : JsString → Nat
  | a :: b :: rest =>
    if 0xD800 ≤ a ∧ a ≤ 0xDBFF ∧ 0xDC00 ≤ b ∧ b ≤ 0xDFFF then countSurrogatePairs rest + 1
    else countSurrogatePairs (b :: rest)
  | _ => 0

/-- The call `validator.isLength(str, { min })` of the `validator` package, as in
its releases 13.9.0 to 13.15.20: the length compared with `min` is the number of
code units, less the variation selectors U+FE0F and U+FE0E, less one per
surrogate pair. The repository does not fix the release of the package; later
releases subtract a selector only where it follows another character, which
differs on a string that starts with a selector. -/
def isLength (str : JsString) (min : Nat) : Bool :=
  let presentationSequences := str.count 0xFE0F + str.count 0xFE0E
  let surrogatePairs := countSurrogatePairs str
  decide (min ≤ str.length - presentationSequences - surrogatePairs)

/-- One of the four checks `payload.f && !validator.isLength(payload.f.trim(), { min: 2 })`
of `validatePayload`, pushing `label must be at least 2 characters long`. -/
def checkMinLength (payload : Payload) (field label : String) (errors : List String) :
    Except String (List String) :=
  if (payload field).truthy then do
    let trimmed ← (payload field).callTrim
    pure (if !isLength trimmed 2 then
      errors ++ [label ++ " must be at least 2 characters long"] else errors)
  else pure errors

/-- The function `validatePayload` of `src/server.js`: the checks run in source
order, each pushing its message at the end of `errors`; a `TypeError` raised by
a method call aborts the function. -/
def validatePayload (payload : Payload) : Except String (List String) := do
  let errors : List String := []
  let errors := requiredFields.foldl
    (fun errors field =>
      if !(payload field).truthy then errors ++ [field ++ " is required"] else errors)
    errors
  let errors ←
    (if (payload "name").truthy then do
      let trimmed ← (payload "name").callTrim
      pure (if trimmed.length < 2 then
        errors ++ ["Name must be at least 2 characters long"] else errors)
    else pure errors)
  let ageNumber := (payload "age").toNumber
  let errors :=
    if ageNumber.isNaN then errors ++ ["Age must be a number"]
    else if ageNumber.lt (JsNum.fin 18) || (JsNum.fin 65).lt ageNumber then
      errors ++ ["Age must be between 18 and 65"]
    else errors
  let errors :=
    if (payload "phoneNumber").truthy && !testTenDigits (payload "phoneNumber") then
      errors ++ ["Phone number must be a valid 10-digit number"]
    else errors
  let errors ← checkMinLength payload "country" "Country" errors
  let errors ← checkMinLength payload "state" "State" errors
  let errors ← checkMinLength payload "district" "District" errors
  let errors ← checkMinLength payload "city" "City" errors
  let errors ←
    (if (payload "bloodGroup").truthy then do
      let upper ← (payload "bloodGroup").callToUpperCase
      pure (if !BLOOD_GROUPS.contains upper then
        errors ++ ["Invalid blood group supplied"] else errors)
    else pure errors)
  let errors ←
    (if (payload "notes").truthy then do
      let length ← (payload "notes").getLength
      pure (if (JsNum.fin 500).lt length.toNumber then
        errors ++ ["Notes cannot exceed 500 characters"] else errors)
    else pure errors)
  return errors

/-! ## Closed form of the validator -/

/-- A value on which the method calls of `validatePayload` do not raise: either
the guard in front of the call is false, or the value is a string. -/
def JsVal.textual : JsVal → Bool
  | .num n => !(JsVal.num n).truthy
  | _ => true

/-- The messages pushed by the `requiredFields.forEach` loop. -/
def requiredErrors (payload : Payload) : List String :=
  (requiredFields.filter fun field => !(payload field).truthy).map fun field =>
    field ++ " is required"

/-- The message pushed by the name check, for a value that does not raise. -/
def nameErrors : JsVal → List String
  | .str s =>
    if s ≠ [] ∧ (trim s).length < 2 then ["Name must be at least 2 characters long"] else []
  | _ => []

/-- The message pushed by the age check. -/
def ageErrors (v : JsVal) : List String :=
  if v.toNumber.isNaN then ["Age must be a number"]
  else if v.toNumber.lt (JsNum.fin 18) || (JsNum.fin 65).lt v.toNumber then
    ["Age must be between 18 and 65"]
  else []

/-- The message pushed by the phone check. -/
def phoneErrors (v : JsVal) : List String :=
  if v.truthy && !testTenDigits v then ["Phone number must be a valid 10-digit number"] else []

/-- The message pushed by one minimum-length check, for a value that does not raise. -/
def minLengthErrors (label : String) : JsVal → List String
  | .str s =>
    if s ≠ [] ∧ isLength (trim s) 2 = false then
      [label ++ " must be at least 2 characters long"] else []
  | _ => []

/-- The message pushed by the blood-group check, for a value that does not raise. -/
def bloodGroupErrors : JsVal → List String
  | .str s =>
    if s ≠ [] ∧ BLOOD_GROUPS.contains (toUpperCase s) = false then
      ["Invalid blood group supplied"] else []
  | _ => []

/-- The message pushed by the notes check. -/
def notesErrors : JsVal → List String
  | .str s => if 500 < s.length then ["Notes cannot exceed 500 characters"] else []
  | _ => []

/-- The whole list, segment after segment in source order. -/
def allErrors (payload : Payload) : List String :=
  requiredErrors payload ++ nameErrors (payload "name") ++ ageErrors (payload "age") ++
    phoneErrors (payload "phoneNumber") ++ minLengthErrors "Country" (payload "country") ++
    minLengthErrors "State" (payload "state") ++ minLengthErrors "District" (payload "district") ++
    minLengthErrors "City" (payload "city") ++ bloodGroupErrors (payload "bloodGroup") ++
    notesErrors (payload "notes")

/-- No method call of `validatePayload` raises on this payload. -/
def noTypeError (payload : Payload) : Bool :=
  (payload "name").textual && (payload "country").textual && (payload "state").textual &&
    (payload "district").textual && (payload "city").textual && (payload "bloodGroup").textual

deriving instance DecidableEq for Except

/-! ## The `POST /api/donations` handler of `src/server.js` -/

/-- The identifier `_id` the store assigns to a document. -/
abbrev DocId := Nat

/-- The object the handler passes to `Donor.create`. -/
structure DonorRecord where
  name : JsString
  age : JsNum
  phoneNumber : JsString
  bloodGroup : JsString
  country : JsString
  state : JsString
  district : JsString
  city : JsString
  notes : Option JsString
  deriving DecidableEq

/-- Evaluation of the object literal given to `Donor.create`, property after
property; a `TypeError` raised by one of the method calls aborts it. -/
def buildRecord (payload : Payload) : Except String DonorRecord := do
  let name ← (payload "name").callTrim
  let age := (payload "age").toNumber
  let phoneNumber ← (payload "phoneNumber").callTrim
  let bloodGroup ← (payload "bloodGroup").callToUpperCase
  let country ← (payload "country").callTrim
  let state ← (payload "state").callTrim
  let district ← (payload "district").callTrim
  let city ← (payload "city").callTrim
  let notes ←
    (if (payload "notes").truthy then (payload "notes").callTrim.map some else pure none)
  pure ⟨name, age, phoneNumber, bloodGroup, country, state, district, city, notes⟩

/-- The JSON body of a response of the `POST` handler. -/
structure PostBody where
  status : String
  message : String
  errors : Option (List String)
  donorId : Option DocId
  deriving DecidableEq

/-- What one run of the `POST` handler does: the response it sends and the
arguments of its calls to `Donor.create`, in order. -/
structure PostOutcome where
  status : Nat
  body : PostBody
  created : List DonorRecord
  deriving DecidableEq

/-- The handler `app.post("/api/donations", …)`. The store is the parameter
`create`, which returns the new `_id` or fails. `validatePayload` is called
outside the `try` block, so a `TypeError` it raises is not caught: the handler
then sends no response (the outer `Except.error`). Everything raised inside the
`try` block, by the object literal or by `create`, is answered with 500. -/
def postDonations (create : DonorRecord → Except String DocId) (payload : Payload) :
    Except String PostOutcome := do
  let validationErrors ← validatePayload payload
  if validationErrors.length ≠ 0 then
    pure ⟨422, ⟨"error", "Validation failed", some validationErrors, none⟩, []⟩
  else
    match buildRecord payload with
    | .error _ =>
      pure ⟨500, ⟨"error", "We were unable to save your details. Please try again shortly.",
        none, none⟩, []⟩
    | .ok record =>
      match create record with
      | .ok donorId =>
        pure ⟨201, ⟨"success", "Donor profile created successfully", none, some donorId⟩,
          [record]⟩
      | .error _ =>
        pure ⟨500, ⟨"error", "We were unable to save your details. Please try again shortly.",
          none, none⟩, [record]⟩

/-! ## The store and the `GET /api/donations` handlers -/

/-- A stored donor document: the schema fields, the `_id`, and the two
timestamps added by `timestamps: true` (milliseconds since the epoch). -/
structure DonorDoc where
  id : DocId
  name : JsString
  age : JsNum
  phoneNumber : JsString
  bloodGroup : JsString
  country : JsString
  state : JsString
  district : JsString
  city : JsString
  notes : Option JsString
  createdAt : Nat
  updatedAt : Nat
  deriving DecidableEq

/-- A document as it appears in a JSON response: field names with their values. -/
abbrev JsonDoc := List (String × JsVal)

/-- The JSON form of a whole stored document (identifiers and dates are shown
as numbers). -/
def DonorDoc.toJson (d : DonorDoc) : JsonDoc :=
  [("_id", JsVal.num (JsNum.fin d.id)), ("name", JsVal.str d.name), ("age", JsVal.num d.age),
    ("phoneNumber", JsVal.str d.phoneNumber), ("bloodGroup", JsVal.str d.bloodGroup),
    ("country", JsVal.str d.country), ("state", JsVal.str d.state),
    ("district", JsVal.str d.district), ("city", JsVal.str d.city)] ++
  (match d.notes with
    | some n => [("notes", JsVal.str n)]
    | none => []) ++
  [("createdAt", JsVal.num (JsNum.fin d.createdAt)),
    ("updatedAt", JsVal.num (JsNum.fin d.updatedAt)), ("__v", JsVal.num (JsNum.fin 0))]

/-- The query built by the chain
`Donor.find({ bloodGroup }).sort({ createdAt }).limit(n).select(fields)`;
`select` is `none` when the chain has no `.select(…)`. -/
structure FindQuery where
  bloodGroup : JsString
  sortCreatedAt : Int
  limit : Nat
  select : Option (List String)
  deriving DecidableEq

/-- Order of `sort({ createdAt: -1 })`: the more recent document comes first. -/
def newerFirst (a b : DonorDoc) : Prop := b.createdAt ≤ a.createdAt

/-- Order of `sort({ createdAt: 1 })`. -/
def olderFirst (a b : DonorDoc) : Prop := a.createdAt ≤ b.createdAt

instance : DecidableRel newerFirst := fun a b => Nat.decLe b.createdAt a.createdAt

instance : DecidableRel olderFirst := fun a b => Nat.decLe a.createdAt b.createdAt

instance : IsTotal DonorDoc newerFirst := ⟨fun a b => Nat.le_total b.createdAt a.createdAt⟩

instance : IsTrans DonorDoc newerFirst :=
  ⟨fun _ _ _ hab hbc => Nat.le_trans hbc hab⟩

/-- An inclusive projection keeps `_id` and the listed fields. -/
def selectFields (fields : Option (List String)) (doc : JsonDoc) : JsonDoc :=
  match fields with
  | none => doc
  | some fs => doc.filter fun kv => kv.1 == "_id" || fs.contains kv.1

/-- The documents a query selects from a store held as a finite list: those with
the requested blood group, sorted on `createdAt`, cut at the limit. -/
def findDocs (store : List DonorDoc) (q : FindQuery) : List DonorDoc :=
  let matching := store.filter fun d => d.bloodGroup == q.bloodGroup
  let sorted :=
    if q.sortCreatedAt < 0 then matching.insertionSort newerFirst
    else matching.insertionSort olderFirst
  sorted.take q.limit

/-- Execution of a query: the selected documents, each reduced by the projection. -/
def runFind (store : List DonorDoc) (q : FindQuery) : List JsonDoc :=
  (findDocs store q).map fun d => selectFields q.select d.toJson

/-- The JSON body of a response of a `GET` handler. -/
structure GetBody where
  status : String
  message : Option String
  donors : Option (List JsonDoc)
  deriving DecidableEq

/-- What one run of a `GET` handler does: the response and the queries sent to
the store, in order. -/
structure GetOutcome where
  status : Nat
  body : GetBody
  queries : List FindQuery
  deriving DecidableEq

/-- The query of the handler of `src/server.js` for a normalised group. -/
def lookupQuery (normalizedGroup : JsString) : FindQuery :=
  ⟨normalizedGroup, -1, 10, some ["name", "age", "city", "state", "bloodGroup", "createdAt"]⟩

/-- The handler `app.get("/api/donations", …)` of `src/server.js`. The query
parameter is missing (`none`) or a string; the store is the parameter `find`. -/
def getDonations (find : FindQuery → Except String (List JsonDoc))
    (bloodGroup : Option JsString) : GetOutcome :=
  match bloodGroup with
  | none => ⟨400, ⟨"error", some "Blood group query parameter is required", none⟩, []⟩
  | some s =>
    if s.isEmpty then
      ⟨400, ⟨"error", some "Blood group query parameter is required", none⟩, []⟩
    else
      let normalizedGroup := toUpperCase s
      if !BLOOD_GROUPS.contains normalizedGroup then
        ⟨422, ⟨"error", some "Invalid blood group supplied", none⟩, []⟩
      else
        match find (lookupQuery normalizedGroup) with
        | .ok donors => ⟨200, ⟨"success", none, some donors⟩, [lookupQuery normalizedGroup]⟩
        | .error _ =>
          ⟨500, ⟨"error", some "Unable to fetch donors at this time. Please try again shortly.",
            none⟩, [lookupQuery normalizedGroup]⟩

/-- The query of the handler of `src/backend/server.js`: the same chain without
`.select(…)`. -/
def backendLookupQuery (normalizedGroup : JsString) : FindQuery :=
  ⟨normalizedGroup, -1, 10, none⟩

/-- The handler `app.get("/api/donations", …)` of `src/backend/server.js`. -/
def backendGetDonations (find : FindQuery → Except String (List JsonDoc))
    (bloodGroup : Option JsString) : GetOutcome :=
  match bloodGroup with
  | none => ⟨422, ⟨"error", some "Invalid blood group", none⟩, []⟩
  | some s =>
    if s.isEmpty || !BLOOD_GROUPS.contains (toUpperCase s) then
      ⟨422, ⟨"error", some "Invalid blood group", none⟩, []⟩
    else
      match find (backendLookupQuery (toUpperCase s)) with
      | .ok donors =>
        ⟨200, ⟨"success", none, some donors⟩, [backendLookupQuery (toUpperCase s)]⟩
      | .error _ =>
        ⟨500, ⟨"error", some "Server error", none⟩, [backendLookupQuery (toUpperCase s)]⟩

/-! ## Notions used to state the properties -/

/-- Lower-casing of one code unit (ASCII letters). -/
def lowerUnit (u : Nat) : Nat := if 65 ≤ u ∧ u ≤ 90 then u + 32 else u

/-- Two strings are equal when the case of their ASCII letters is ignored. -/
def caseInsensitiveEq (a b : JsString) : Prop := a.map lowerUnit = b.map lowerUnit

/-- A field is blank: missing, `null`, the empty string, or a number that is
`0` or `NaN`. -/
def JsVal.blank (v : JsVal) : Prop :=
  v = .undefined ∨ v = .null ∨ v = .str [] ∨ v = .num (.fin 0) ∨ v = .num .nan

/-- The field constraints of a donor record, with the age a number in the
range (not necessarily a whole number). -/
structure DonorRecord.WellFormed (r : DonorRecord) : Prop where
  name : 2 ≤ (trim r.name).length
  age : ∃ q : ℚ, r.age = JsNum.fin q ∧ 18 ≤ q ∧ q ≤ 65
  phoneNumber : r.phoneNumber.length = 10 ∧ ∀ u ∈ r.phoneNumber, 48 ≤ u ∧ u ≤ 57
  bloodGroup : r.bloodGroup ∈ BLOOD_GROUPS ∧ toUpperCase r.bloodGroup = r.bloodGroup
  country : 2 ≤ (trim r.country).length
  state : 2 ≤ (trim r.state).length
  district : 2 ≤ (trim r.district).length
  city : 2 ≤ (trim r.city).length
  notes : ∀ n, r.notes = some n → n.length ≤ 500

/-- The fields a lookup response may show. -/
def displayFields : List String :=
  ["_id", "name", "age", "city", "state", "bloodGroup", "createdAt"]

/-- The fields a lookup response must not show. -/
def privateFields : List String := ["phoneNumber", "notes", "country", "district"]

/-! ## Concrete inputs -/

/-- The payload written by a JSON object: the value of each listed field. -/
def payloadOf (fields : List (String × JsVal)) : Payload :=
  fun k => (fields.lookup k).getD JsVal.undefined

/-- A payload with one field replaced. -/
def withField (p : Payload) (k : String) (v : JsVal) : Payload :=
  fun k' => if k' = k then v else p k'

/-- A registration the validator accepts. -/
def validPayload : Payload :=
  payloadOf [("name", .str (js "Asha Rao")), ("age", .num (.fin 30)),
    ("phoneNumber", .str (js "9876543210")), ("bloodGroup", .str (js "o+")),
    ("country", .str (js "India")), ("state", .str (js "Goa")),
    ("district", .str (js "North Goa")), ("city", .str (js "Panaji"))]

/-- The record built from `validPayload`. -/
def validRecord : DonorRecord :=
  ⟨js "Asha Rao", .fin 30, js "9876543210", js "O+", js "India", js "Goa", js "North Goa",
    js "Panaji", none⟩

/-- The body `{ ..., "age": 0 }`. -/
def zeroAgePayload : Payload := withField validPayload "age" (.num (.fin 0))

/-- The body `{ ..., "phoneNumber": "" }`. -/
def emptyPhonePayload : Payload := withField validPayload "phoneNumber" (.str [])

/-- The body `{ ..., "bloodGroup": "" }`. -/
def emptyBloodGroupPayload : Payload := withField validPayload "bloodGroup" (.str [])

/-- The body `{ "name": 12345, ... }`. -/
def numericNamePayload : Payload := withField validPayload "name" (.num (.fin 12345))

/-- The body `{ ..., "age": 18.5 }`. -/
def fractionalAgePayload : Payload := withField validPayload "age" (.num (.fin (mkRat 37 2)))

/-- The body `{ ..., "phoneNumber": 9876543210 }`. -/
def numericPhonePayload : Payload :=
  withField validPayload "phoneNumber" (.num (.fin 9876543210))

/-- A store that accepts every record and assigns the identifier 1. -/
def acceptingStore : DonorRecord → Except String DocId := fun _ => .ok 1

/-- A stored donor registered at the given time. -/
def sampleDoc (id : DocId) (group : String) (createdAt : Nat) : DonorDoc :=
  ⟨id, js "Asha Rao", .fin 30, js "9876543210", js group, js "India", js "Goa", js "North Goa",
    js "Panaji", some (js "evenings only"), createdAt, createdAt⟩

/-- A store of three donors, two of them of group `O+`. -/
def sampleStore : List DonorDoc :=
  [sampleDoc 1 "O+" 1000, sampleDoc 2 "A-" 2000, sampleDoc 3 "O+" 3000]

/-- The body `{ ..., "age": 17 }`. -/
def underagePayload : Payload := withField validPayload "age" (.num (.fin 17))

/-- The body `{ "name": 12345, "age": 17, ... }`. -/
def numericNameUnderagePayload : Payload :=
  withField numericNamePayload "age" (.num (.fin 17))

/-- The body `{ ..., "phoneNumber": "98765 4321" }`. -/
def spacedPhonePayload : Payload := withField validPayload "phoneNumber" (.str (js "98765 4321"))

/-- The body `{ ..., "bloodGroup": "ab-" }`. -/
def lowerCaseGroupPayload : Payload := withField validPayload "bloodGroup" (.str (js "ab-"))

/-- The record built from `fractionalAgePayload`. -/
def fractionalAgeRecord : DonorRecord :=
  ⟨js "Asha Rao", .fin (mkRat 37 2), js "9876543210", js "O+", js "India", js "Goa",
    js "North Goa", js "Panaji", none⟩

/-- A lookup served from `sampleStore`. -/
def sampleFind : FindQuery → Except String (List JsonDoc) := fun q => .ok (runFind sampleStore q)

/-! ## The catalogue of validation messages

A second description of the validator's result, following the enumeration of
the specification: every message the validator can report, in the order of
reporting, each with the condition under which its rule is violated. It is
compared with `validatePayload` below. -/

/-- Decidable form of `JsVal.blank`: the rule "the field must be given" is violated. -/
def JsVal.isBlank (v : JsVal) : Bool :=
  v == .undefined || v == .null || v == .str [] || v == .num (.fin 0) || v == .num .nan

/-- The name is a non-empty string whose trimmed form has fewer than 2 code units. -/
def nameTooShort : JsVal → Bool
  | .str s => !s.isEmpty && decide ((trim s).length < 2)
  | _ => false

/-- The age does not parse as a number. -/
def ageNotNumber (v : JsVal) : Bool := v.toNumber == JsNum.nan

/-- The age parses as a number below 18 or above 65. -/
def ageOutOfRange (v : JsVal) : Bool :=
  match v.toNumber with
  | .fin q => decide (q < 18 ∨ 65 < q)
  | .posInf => true
  | .negInf => true
  | .nan => false

/-- The phone number is given and its text is not exactly ten decimal digits. -/
def phoneMalformed (v : JsVal) : Bool := !v.isBlank && !testTenDigits v

/-- A place field is a non-empty string whose trimmed form is shorter than 2
for `validator.isLength`. -/
def placeTooShort : JsVal → Bool
  | .str s => !s.isEmpty && !isLength (trim s) 2
  | _ => false

/-- The blood group is a non-empty string equal, case ignored, to none of the
eight groups. -/
def groupInvalid : JsVal → Bool
  | .str s =>
    !s.isEmpty && !BLOOD_GROUPS.any fun g => decide (s.map lowerUnit = g.map lowerUnit)
  | _ => false

/-- The notes are a string of more than 500 code units. -/
def notesTooLong : JsVal → Bool
  | .str s => decide (500 < s.length)
  | _ => false

/-- Every message of the validator in the order of reporting, each with the
condition under which its rule is violated on the given payload. -/
def errorCatalogue (p : Payload) : List (String × Bool) :=
  [("name is required", (p "name").isBlank),
    ("age is required", (p "age").isBlank),
    ("phoneNumber is required", (p "phoneNumber").isBlank),
    ("bloodGroup is required", (p "bloodGroup").isBlank),
    ("country is required", (p "country").isBlank),
    ("state is required", (p "state").isBlank),
    ("district is required", (p "district").isBlank),
    ("city is required", (p "city").isBlank),
    ("Name must be at least 2 characters long", nameTooShort (p "name")),
    ("Age must be a number", ageNotNumber (p "age")),
    ("Age must be between 18 and 65", ageOutOfRange (p "age")),
    ("Phone number must be a valid 10-digit number", phoneMalformed (p "phoneNumber")),
    ("Country must be at least 2 characters long", placeTooShort (p "country")),
    ("State must be at least 2 characters long", placeTooShort (p "state")),
    ("District must be at least 2 characters long", placeTooShort (p "district")),
    ("City must be at least 2 characters long", placeTooShort (p "city")),
    ("Invalid blood group supplied", groupInvalid (p "bloodGroup")),
    ("Notes cannot exceed 500 characters", notesTooLong (p "notes"))]

/-- The messages of the catalogue whose rule is violated, in catalogue order. -/
def cataloguedErrors (p : Payload) : List String :=
  ((errorCatalogue p).filter fun e => e.2).map fun e => e.1

/-- The body `{ "age": 0 }`. -/
def onlyZeroAgePayload : Payload := payloadOf [("age", .num (.fin 0))]

/-- The body `{ "name": "A", "age": 17, ... }` with the other fields valid. -/
def shortNameUnderagePayload : Payload :=
  withField (withField validPayload "name" (.str (js "A"))) "age" (.num (.fin 17))

/-- The body `{ "name": "😀", "country": "😀", ... }`: one character outside the
Basic Multilingual Plane, two code units, in both fields. -/
def emojiNamePayload : Payload :=
  withField (withField validPayload "name" (.str (js "😀"))) "country" (.str (js "😀"))

/-! ## Auxiliary lemmas -/

theorem foldl_required (payload : Payload) (fields : List String) (acc : List String) :
    fields.foldl
      (fun errors field =>
        if !(payload field).truthy then errors ++ [field ++ " is required"] else errors) acc
      = acc ++ (fields.filter fun field => !(payload field).truthy).map fun field =>
          field ++ " is required" := by
  induction fields generalizing acc with
  | nil => simp
  | cons f fs ih =>
    simp only [List.foldl_cons, ih, List.filter_cons]
    split <;> simp

theorem checkMinLength_textual (payload : Payload) (field label : String) (errors : List String)
    (h : (payload field).textual = true) :
    checkMinLength payload field label errors
      = .ok (errors ++ minLengthErrors label (payload field)) := by
  unfold checkMinLength
  cases hv : payload field with
  | undefined => simp [JsVal.truthy, minLengthErrors, pure, Except.pure]
  | null => simp [JsVal.truthy, minLengthErrors, pure, Except.pure]
  | str s =>
    by_cases hs : s = []
    · simp [JsVal.truthy, minLengthErrors, pure, Except.pure, hs]
    · cases hl : isLength (trim s) 2 <;>
        simp [JsVal.truthy, minLengthErrors, pure, Except.pure, hs, JsVal.callTrim, bind,
          Except.bind, hl]
  | num n =>
    rw [hv] at h
    have ht : (JsVal.num n).truthy = false := by simpa [JsVal.textual] using h
    simp [ht, minLengthErrors, pure, Except.pure]

theorem checkMinLength_not_textual (payload : Payload) (field label : String)
    (errors : List String) (h : (payload field).textual = false) :
    checkMinLength payload field label errors = .error "TypeError: trim is not a function" := by
  unfold checkMinLength
  cases hv : payload field with
  | undefined => rw [hv] at h; simp [JsVal.textual] at h
  | null => rw [hv] at h; simp [JsVal.textual] at h
  | str s => rw [hv] at h; simp [JsVal.textual] at h
  | num n =>
    rw [hv] at h
    have ht : (JsVal.num n).truthy = true := by simpa [JsVal.textual] using h
    simp [ht, JsVal.callTrim, bind, Except.bind]

theorem nameStep_textual (v : JsVal) (errors : List String) (h : v.textual = true) :
    (if v.truthy then do
      let trimmed ← v.callTrim
      pure (if trimmed.length < 2 then
        errors ++ ["Name must be at least 2 characters long"] else errors)
    else pure errors : Except String (List String)) = .ok (errors ++ nameErrors v) := by
  cases v with
  | undefined => simp [JsVal.truthy, nameErrors, pure, Except.pure]
  | null => simp [JsVal.truthy, nameErrors, pure, Except.pure]
  | str s =>
    by_cases hs : s = []
    · simp [JsVal.truthy, nameErrors, pure, Except.pure, hs]
    · by_cases hl : (trim s).length < 2 <;>
        simp [JsVal.truthy, nameErrors, pure, Except.pure, hs, JsVal.callTrim, bind,
          Except.bind, hl]
  | num n =>
    have ht : (JsVal.num n).truthy = false := by simpa [JsVal.textual] using h
    simp [ht, nameErrors, pure, Except.pure]

theorem nameStep_not_textual (v : JsVal) (errors : List String) (h : v.textual = false) :
    (if v.truthy then do
      let trimmed ← v.callTrim
      pure (if trimmed.length < 2 then
        errors ++ ["Name must be at least 2 characters long"] else errors)
    else pure errors : Except String (List String))
      = .error "TypeError: trim is not a function" := by
  cases v with
  | undefined => simp [JsVal.textual] at h
  | null => simp [JsVal.textual] at h
  | str s => simp [JsVal.textual] at h
  | num n =>
    have ht : (JsVal.num n).truthy = true := by simpa [JsVal.textual] using h
    simp [ht, JsVal.callTrim, bind, Except.bind]

theorem bloodGroupStep_textual (v : JsVal) (errors : List String) (h : v.textual = true) :
    (if v.truthy then do
      let upper ← v.callToUpperCase
      pure (if !BLOOD_GROUPS.contains upper then
        errors ++ ["Invalid blood group supplied"] else errors)
    else pure errors : Except String (List String)) = .ok (errors ++ bloodGroupErrors v) := by
  cases v with
  | undefined => simp [JsVal.truthy, bloodGroupErrors, pure, Except.pure]
  | null => simp [JsVal.truthy, bloodGroupErrors, pure, Except.pure]
  | str s =>
    by_cases hs : s = []
    · simp [JsVal.truthy, bloodGroupErrors, pure, Except.pure, hs]
    · by_cases hl : toUpperCase s ∈ BLOOD_GROUPS <;>
        simp [JsVal.truthy, bloodGroupErrors, pure, Except.pure, hs, JsVal.callToUpperCase, bind,
          Except.bind, hl]
  | num n =>
    have ht : (JsVal.num n).truthy = false := by simpa [JsVal.textual] using h
    simp [ht, bloodGroupErrors, pure, Except.pure]

theorem bloodGroupStep_not_textual (v : JsVal) (errors : List String) (h : v.textual = false) :
    (if v.truthy then do
      let upper ← v.callToUpperCase
      pure (if !BLOOD_GROUPS.contains upper then
        errors ++ ["Invalid blood group supplied"] else errors)
    else pure errors : Except String (List String))
      = .error "TypeError: toUpperCase is not a function" := by
  cases v with
  | undefined => simp [JsVal.textual] at h
  | null => simp [JsVal.textual] at h
  | str s => simp [JsVal.textual] at h
  | num n =>
    have ht : (JsVal.num n).truthy = true := by simpa [JsVal.textual] using h
    simp [ht, JsVal.callToUpperCase, bind, Except.bind]

theorem notesStep (v : JsVal) (errors : List String) :
    (if v.truthy then do
      let length ← v.getLength
      pure (if (JsNum.fin 500).lt length.toNumber then
        errors ++ ["Notes cannot exceed 500 characters"] else errors)
    else pure errors : Except String (List String)) = .ok (errors ++ notesErrors v) := by
  cases v with
  | undefined => simp [JsVal.truthy, notesErrors, pure, Except.pure]
  | null => simp [JsVal.truthy, notesErrors, pure, Except.pure]
  | str s =>
    by_cases hs : s = []
    · simp [JsVal.truthy, notesErrors, pure, Except.pure, hs]
    · by_cases hl : 500 < s.length <;>
        simp [JsVal.truthy, notesErrors, pure, Except.pure, hs, JsVal.getLength, bind,
          Except.bind, JsVal.toNumber, JsNum.lt, hl]
  | num n =>
    cases ht : (JsVal.num n).truthy <;>
      simp [ht, notesErrors, pure, Except.pure, JsVal.getLength, bind, Except.bind,
        JsVal.toNumber, JsNum.lt]

theorem ageStep (v : JsVal) (errors : List String) :
    (if v.toNumber.isNaN then errors ++ ["Age must be a number"]
    else if v.toNumber.lt (JsNum.fin 18) || (JsNum.fin 65).lt v.toNumber then
      errors ++ ["Age must be between 18 and 65"]
    else errors) = errors ++ ageErrors v := by
  unfold ageErrors
  split_ifs <;> simp

theorem phoneStep (v : JsVal) (errors : List String) :
    (if v.truthy && !testTenDigits v then
      errors ++ ["Phone number must be a valid 10-digit number"]
    else errors) = errors ++ phoneErrors v := by
  unfold phoneErrors
  split_ifs <;> simp

/-- On a payload where no method call raises, `validatePayload` returns the
segments of `allErrors` in order. -/
theorem validatePayload_ok (p : Payload) (h : noTypeError p = true) :
    validatePayload p = .ok (allErrors p) := by
  simp only [noTypeError, Bool.and_eq_true] at h
  obtain ⟨⟨⟨⟨⟨hn, hc⟩, hs⟩, hd⟩, hci⟩, hb⟩ := h
  unfold validatePayload
  simp only [foldl_required, List.nil_append, checkMinLength_textual _ _ _ _ hc,
    checkMinLength_textual _ _ _ _ hs, checkMinLength_textual _ _ _ _ hd,
    checkMinLength_textual _ _ _ _ hci, nameStep_textual _ _ hn, ageStep, phoneStep,
    bloodGroupStep_textual _ _ hb, notesStep]
  rfl

/-- On every other payload a `TypeError` escapes from `validatePayload`. -/
theorem validatePayload_error (p : Payload) (h : noTypeError p = false) :
    ∃ e, validatePayload p = .error e := by
  unfold validatePayload
  simp only [foldl_required, List.nil_append, ageStep, phoneStep, notesStep]
  cases hn : (p "name").textual
  · exact ⟨_, by simp only [nameStep_not_textual _ _ hn]; rfl⟩
  cases hc : (p "country").textual
  · exact ⟨_, by simp only [nameStep_textual _ _ hn, checkMinLength_not_textual _ _ _ _ hc]; rfl⟩
  cases hs : (p "state").textual
  · exact ⟨_, by
      simp only [nameStep_textual _ _ hn, checkMinLength_textual _ _ _ _ hc,
        checkMinLength_not_textual _ _ _ _ hs]; rfl⟩
  cases hd : (p "district").textual
  · exact ⟨_, by
      simp only [nameStep_textual _ _ hn, checkMinLength_textual _ _ _ _ hc,
        checkMinLength_textual _ _ _ _ hs, checkMinLength_not_textual _ _ _ _ hd]; rfl⟩
  cases hci : (p "city").textual
  · exact ⟨_, by
      simp only [nameStep_textual _ _ hn, checkMinLength_textual _ _ _ _ hc,
        checkMinLength_textual _ _ _ _ hs, checkMinLength_textual _ _ _ _ hd,
        checkMinLength_not_textual _ _ _ _ hci]; rfl⟩
  cases hb : (p "bloodGroup").textual
  · exact ⟨_, by
      simp only [nameStep_textual _ _ hn, checkMinLength_textual _ _ _ _ hc,
        checkMinLength_textual _ _ _ _ hs, checkMinLength_textual _ _ _ _ hd,
        checkMinLength_textual _ _ _ _ hci, bloodGroupStep_not_textual _ _ hb]; rfl⟩
  simp [noTypeError, hn, hc, hs, hd, hci, hb] at h

/-- The list `validatePayload` returns, when it returns one, is `allErrors`. -/
theorem validatePayload_eq_ok (p : Payload) (errs : List String)
    (h : validatePayload p = .ok errs) : noTypeError p = true ∧ errs = allErrors p := by
  cases hp : noTypeError p with
  | false =>
    obtain ⟨e, he⟩ := validatePayload_error p hp
    rw [he] at h
    cases h
  | true =>
    rw [validatePayload_ok p hp] at h
    exact ⟨rfl, (Except.ok.inj h).symm⟩

theorem mem_requiredErrors (p : Payload) (m : String) :
    m ∈ requiredErrors p ↔
      ∃ f ∈ requiredFields, (p f).truthy = false ∧ f ++ " is required" = m := by
  simp [requiredErrors, and_assoc]

theorem mem_nameErrors (v : JsVal) (m : String) :
    m ∈ nameErrors v ↔
      m = "Name must be at least 2 characters long" ∧
        ∃ s, v = .str s ∧ s ≠ [] ∧ (trim s).length < 2 := by
  cases v <;> simp [nameErrors]
  tauto

theorem mem_ageErrors (v : JsVal) (m : String) :
    m ∈ ageErrors v ↔
      (m = "Age must be a number" ∧ v.toNumber.isNaN = true) ∨
      (m = "Age must be between 18 and 65" ∧ v.toNumber.isNaN = false ∧
        (v.toNumber.lt (JsNum.fin 18) = true ∨ (JsNum.fin 65).lt v.toNumber = true)) := by
  unfold ageErrors
  split_ifs with h1 h2 <;> simp_all

theorem mem_phoneErrors (v : JsVal) (m : String) :
    m ∈ phoneErrors v ↔
      m = "Phone number must be a valid 10-digit number" ∧ v.truthy = true ∧
        testTenDigits v = false := by
  unfold phoneErrors
  split_ifs with h <;> simp_all

theorem mem_minLengthErrors (label : String) (v : JsVal) (m : String) :
    m ∈ minLengthErrors label v ↔
      m = label ++ " must be at least 2 characters long" ∧
        ∃ s, v = .str s ∧ s ≠ [] ∧ isLength (trim s) 2 = false := by
  cases v <;> simp [minLengthErrors]
  tauto

theorem mem_bloodGroupErrors (v : JsVal) (m : String) :
    m ∈ bloodGroupErrors v ↔
      m = "Invalid blood group supplied" ∧
        ∃ s, v = .str s ∧ s ≠ [] ∧ toUpperCase s ∉ BLOOD_GROUPS := by
  cases v <;> simp [bloodGroupErrors]
  tauto

theorem mem_notesErrors (v : JsVal) (m : String) :
    m ∈ notesErrors v ↔
      m = "Notes cannot exceed 500 characters" ∧ ∃ s, v = .str s ∧ 500 < s.length := by
  cases v <;> simp [notesErrors]
  tauto

theorem mem_allErrors (p : Payload) (m : String) :
    m ∈ allErrors p ↔
      m ∈ requiredErrors p ∨ m ∈ nameErrors (p "name") ∨ m ∈ ageErrors (p "age") ∨
      m ∈ phoneErrors (p "phoneNumber") ∨ m ∈ minLengthErrors "Country" (p "country") ∨
      m ∈ minLengthErrors "State" (p "state") ∨ m ∈ minLengthErrors "District" (p "district") ∨
      m ∈ minLengthErrors "City" (p "city") ∨ m ∈ bloodGroupErrors (p "bloodGroup") ∨
      m ∈ notesErrors (p "notes") := by
  simp only [allErrors, List.mem_append, or_assoc]

theorem truthy_eq_false_iff_blank (v : JsVal) : v.truthy = false ↔ v.blank := by
  unfold JsVal.blank
  cases v with
  | undefined => simp [JsVal.truthy]
  | null => simp [JsVal.truthy]
  | str s => cases s <;> simp [JsVal.truthy]
  | num n => cases n <;> simp [JsVal.truthy]

/-! ### Strings -/

theorem trim_eq_rdropWhile (s : JsString) :
    trim s = (s.dropWhile isJsWhiteSpace).rdropWhile isJsWhiteSpace := rfl

theorem trim_length_le (s : JsString) : (trim s).length ≤ s.length := by
  rw [trim_eq_rdropWhile]
  exact (List.rdropWhile_prefix _ _).length_le.trans (List.dropWhile_suffix _).length_le

theorem dropWhile_rdropWhile_dropWhile (f : Nat → Bool) (s : List Nat) :
    ((s.dropWhile f).rdropWhile f).dropWhile f = (s.dropWhile f).rdropWhile f := by
  rw [List.dropWhile_eq_self_iff]
  intro hl
  have hpre : (s.dropWhile f).rdropWhile f <+: s.dropWhile f := List.rdropWhile_prefix _ _
  have hl2 : 0 < (s.dropWhile f).length := lt_of_lt_of_le hl hpre.length_le
  have h0 := List.dropWhile_get_zero_not f s hl2
  have he : ((s.dropWhile f).rdropWhile f)[0] = (s.dropWhile f)[0] := hpre.getElem hl
  simpa [List.get_eq_getElem, he] using h0

theorem trim_trim (s : JsString) : trim (trim s) = trim s := by
  simp only [trim_eq_rdropWhile, dropWhile_rdropWhile_dropWhile, List.rdropWhile_idempotent]

theorem trim_of_no_whiteSpace (s : JsString) (h : ∀ u ∈ s, isJsWhiteSpace u = false) :
    trim s = s := by
  have h1 : s.dropWhile isJsWhiteSpace = s := by
    rw [List.dropWhile_eq_self_iff]
    intro hl
    have hm : s[0] ∈ s := by simp [List.getElem_mem]
    simp [h _ hm]
  rw [trim_eq_rdropWhile, h1, List.rdropWhile_eq_self_iff]
  intro hl
  simp [h _ (List.getLast_mem hl)]

theorem isDigit_not_whiteSpace (u : Nat) (h : isDigit u = true) : isJsWhiteSpace u = false := by
  simp only [isDigit, Bool.and_eq_true, decide_eq_true_eq] at h
  simp only [isJsWhiteSpace, Bool.or_eq_false_iff, beq_eq_false_iff_ne, Bool.and_eq_false_iff,
    decide_eq_false_iff_not]
  omega

theorem matchesTenDigits_iff (s : JsString) :
    matchesTenDigits s = true ↔ s.length = 10 ∧ ∀ u ∈ s, 48 ≤ u ∧ u ≤ 57 := by
  simp [matchesTenDigits, isDigit]

theorem isLength_two_le (t : JsString) (h : isLength t 2 = true) : 2 ≤ t.length := by
  simp only [isLength, decide_eq_true_eq] at h
  omega

theorem upperUnit_lowerUnit (u : Nat) : upperUnit (lowerUnit u) = upperUnit u := by
  unfold upperUnit lowerUnit
  split_ifs <;> omega

theorem lowerUnit_upperUnit (u : Nat) : lowerUnit (upperUnit u) = lowerUnit u := by
  unfold upperUnit lowerUnit
  split_ifs <;> omega

theorem upperUnit_upperUnit (u : Nat) : upperUnit (upperUnit u) = upperUnit u := by
  unfold upperUnit
  split_ifs <;> omega

theorem toUpperCase_toUpperCase (s : JsString) : toUpperCase (toUpperCase s) = toUpperCase s := by
  simp [toUpperCase, Function.comp_def, upperUnit_upperUnit]

theorem toUpperCase_of_mem_BLOOD_GROUPS (g : JsString) (h : g ∈ BLOOD_GROUPS) :
    toUpperCase g = g := by
  simp only [BLOOD_GROUPS, List.mem_cons, List.mem_singleton, List.not_mem_nil, or_false] at h
  rcases h with rfl | rfl | rfl | rfl | rfl | rfl | rfl | rfl <;> decide

theorem toUpperCase_mem_iff (s : JsString) :
    toUpperCase s ∈ BLOOD_GROUPS ↔ ∃ g ∈ BLOOD_GROUPS, caseInsensitiveEq s g := by
  constructor
  · intro h
    refine ⟨toUpperCase s, h, ?_⟩
    simp [caseInsensitiveEq, toUpperCase, Function.comp_def, lowerUnit_upperUnit]
  · rintro ⟨g, hg, hsg⟩
    have h1 : toUpperCase s = toUpperCase g := by
      have := congrArg (List.map upperUnit) hsg
      simpa [toUpperCase, Function.comp_def, upperUnit_lowerUnit] using this
    rw [h1, toUpperCase_of_mem_BLOOD_GROUPS g hg]
    exact hg

/-! ### The handlers -/

theorem except_bind_eq_ok {ε α β : Type} (x : Except ε α) (f : α → Except ε β) (b : β) :
    x >>= f = .ok b ↔ ∃ a, x = .ok a ∧ f a = .ok b := by
  cases x <;> simp [bind, Except.bind]

theorem callTrim_eq_ok (v : JsVal) (t : JsString) :
    v.callTrim = .ok t ↔ ∃ s, v = .str s ∧ t = trim s := by
  cases v <;> simp [JsVal.callTrim, eq_comm]

theorem callToUpperCase_eq_ok (v : JsVal) (t : JsString) :
    v.callToUpperCase = .ok t ↔ ∃ s, v = .str s ∧ t = toUpperCase s := by
  cases v <;> simp [JsVal.callToUpperCase, eq_comm]

/-- A record is built exactly when the seven text fields are strings and
`notes` is blank or a string; its fields are then the normalised values. -/
theorem buildRecord_eq_ok (p : Payload) (r : DonorRecord) (h : buildRecord p = .ok r) :
    ∃ name phone group country state district city,
      p "name" = .str name ∧ p "phoneNumber" = .str phone ∧ p "bloodGroup" = .str group ∧
      p "country" = .str country ∧ p "state" = .str state ∧ p "district" = .str district ∧
      p "city" = .str city ∧
      r.name = trim name ∧ r.age = (p "age").toNumber ∧ r.phoneNumber = trim phone ∧
      r.bloodGroup = toUpperCase group ∧ r.country = trim country ∧ r.state = trim state ∧
      r.district = trim district ∧ r.city = trim city ∧
      (∀ n, r.notes = some n → ∃ s, p "notes" = .str s ∧ n = trim s) := by
  unfold buildRecord at h
  simp only [except_bind_eq_ok, callTrim_eq_ok, callToUpperCase_eq_ok] at h
  obtain ⟨_, ⟨name, hn, rfl⟩, _, ⟨phone, hp, rfl⟩, _, ⟨group, hg, rfl⟩, _, ⟨country, hc, rfl⟩,
    _, ⟨state, hs, rfl⟩, _, ⟨district, hd, rfl⟩, _, ⟨city, hci, rfl⟩, notes, hnotes, hr⟩ := h
  have hr' := Except.ok.inj hr
  subst hr'
  refine ⟨name, phone, group, country, state, district, city, hn, hp, hg, hc, hs, hd, hci,
    rfl, rfl, rfl, rfl, rfl, rfl, rfl, rfl, ?_⟩
  intro n hnn
  simp only at hnn
  subst hnn
  split_ifs at hnotes with ht
  · cases hv : p "notes" with
    | str s =>
      refine ⟨s, rfl, ?_⟩
      simpa [hv, JsVal.callTrim, Except.map] using hnotes.symm
    | undefined => simp [hv, JsVal.callTrim, Except.map] at hnotes
    | null => simp [hv, JsVal.callTrim, Except.map] at hnotes
    | num k => simp [hv, JsVal.callTrim, Except.map] at hnotes
  · cases hnotes

/-- A record reaches the store only after the validator returned the empty list
and the record was built from the payload. -/
theorem postDonations_created (create : DonorRecord → Except String DocId) (p : Payload)
    (out : PostOutcome) (r : DonorRecord) (h : postDonations create p = .ok out)
    (hr : r ∈ out.created) : validatePayload p = .ok [] ∧ buildRecord p = .ok r := by
  unfold postDonations at h
  cases hv : validatePayload p with
  | error e => simp [hv, bind, Except.bind] at h
  | ok errs =>
    cases errs with
    | cons m ms =>
      simp [hv, bind, Except.bind, pure, Except.pure] at h
      subst h
      simp at hr
    | nil =>
      cases hb : buildRecord p with
      | error e =>
        simp [hv, hb, bind, Except.bind, pure, Except.pure] at h
        subst h
        simp at hr
      | ok rec =>
        cases hc : create rec <;>
        · simp [hv, hb, hc, bind, Except.bind, pure, Except.pure] at h
          subst h
          simp at hr
          subst hr
          exact ⟨rfl, rfl⟩

/-! ### The store -/

theorem findDocs_lookupQuery (store : List DonorDoc) (g : JsString) :
    findDocs store (lookupQuery g)
      = ((store.filter fun d => d.bloodGroup == g).insertionSort newerFirst).take 10 := by
  simp [findDocs, lookupQuery]

theorem map_injOn_eq {α β : Type} (f : α → β) :
    ∀ (l₁ l₂ : List α), l₁.map f = l₂.map f →
      (∀ x ∈ l₁, ∀ y ∈ l₂, f x = f y → x = y) → l₁ = l₂
  | [], [], _, _ => rfl
  | [], _ :: _, h, _ => by simp at h
  | _ :: _, [], h, _ => by simp at h
  | a :: l₁, b :: l₂, h, hinj => by
    simp only [List.map_cons, List.cons.injEq] at h
    have hab : a = b := hinj a (by simp) b (by simp) h.1
    have ht : l₁ = l₂ :=
      map_injOn_eq f l₁ l₂ h.2 fun x hx y hy hxy =>
        hinj x (List.mem_cons_of_mem _ hx) y (List.mem_cons_of_mem _ hy) hxy
    rw [hab, ht]

/-- A list of documents with distinct timestamps has one arrangement only in
which the more recent document always comes first. -/
theorem sorted_newest_first_unique (m l₁ l₂ : List DonorDoc)
    (hd : (m.map DonorDoc.createdAt).Nodup) (h₁ : l₁.Perm m) (h₂ : l₂.Perm m)
    (s₁ : l₁.Pairwise newerFirst) (s₂ : l₂.Pairwise newerFirst) : l₁ = l₂ := by
  have hmap : l₁.map DonorDoc.createdAt = l₂.map DonorDoc.createdAt := by
    apply List.eq_of_perm_of_sorted (r := fun a b : Nat => b ≤ a)
    · exact (h₁.trans h₂.symm).map _
    · exact List.pairwise_map.mpr s₁
    · exact List.pairwise_map.mpr s₂
  apply map_injOn_eq DonorDoc.createdAt l₁ l₂ hmap
  intro x hx y hy hxy
  exact List.inj_on_of_nodup_map hd (h₁.mem_iff.mp hx) (h₂.mem_iff.mp hy) hxy

theorem lookup_sorted_strict (store : List DonorDoc) (g : JsString)
    (hd : (store.map DonorDoc.createdAt).Nodup) :
    ((store.filter fun d => d.bloodGroup == g).insertionSort newerFirst).Pairwise
      (fun a b => b.createdAt < a.createdAt) := by
  have hperm := List.perm_insertionSort newerFirst (store.filter fun d => d.bloodGroup == g)
  have hsorted : ((store.filter fun d => d.bloodGroup == g).insertionSort newerFirst).Pairwise
      newerFirst := List.sorted_insertionSort newerFirst _
  have hnodupM : ((store.filter fun d => d.bloodGroup == g).map DonorDoc.createdAt).Nodup :=
    hd.sublist ((List.filter_sublist store).map _)
  have hnodupS := (hperm.map DonorDoc.createdAt).nodup_iff.mpr hnodupM
  have hne := List.pairwise_map.mp hnodupS
  exact (hsorted.and hne).imp fun h => lt_of_le_of_ne h.1 (Ne.symm h.2)

theorem mem_selectFields_lookup (doc : JsonDoc) (kv : String × JsVal) (g : JsString)
    (h : kv ∈ selectFields (lookupQuery g).select doc) :
    kv.1 ∈ displayFields ∧ kv.1 ∉ privateFields := by
  simp only [selectFields, lookupQuery, List.mem_filter, Bool.or_eq_true, beq_iff_eq,
    List.contains_eq_any_beq, List.any_eq_true] at h
  obtain ⟨-, h1 | ⟨x, hx, hkx⟩⟩ := h
  · rw [h1]
    decide
  · have hk : kv.1 = x := by simpa using hkx
    rw [hk]
    simp only [List.mem_cons, List.mem_singleton, List.not_mem_nil, or_false] at hx
    rcases hx with rfl | rfl | rfl | rfl | rfl | rfl <;> decide

/-! ### The catalogue -/

theorem isBlank_iff_blank (v : JsVal) : v.isBlank = true ↔ v.blank := by
  simp [JsVal.isBlank, JsVal.blank, or_assoc]

theorem isBlank_eq_not_truthy (v : JsVal) : v.isBlank = !v.truthy := by
  cases ht : v.truthy
  · exact (isBlank_iff_blank v).mpr ((truthy_eq_false_iff_blank v).mp ht)
  · cases hb : v.isBlank
    · rfl
    · have := (truthy_eq_false_iff_blank v).mpr ((isBlank_iff_blank v).mp hb)
      rw [ht] at this
      cases this

theorem filter_map_eq_flatMap {α β : Type} (f : α → Bool) (g : α → β) (l : List α) :
    (l.filter f).map g = l.flatMap fun x => if f x then [g x] else [] := by
  induction l with
  | nil => rfl
  | cons a l ih =>
    simp only [List.filter_cons, List.flatMap_cons]
    split <;> simp [ih]

theorem nameErrors_eq (v : JsVal) :
    nameErrors v
      = if nameTooShort v then ["Name must be at least 2 characters long"] else [] := by
  cases v <;> simp [nameErrors, nameTooShort]

theorem ageErrors_eq (v : JsVal) :
    ageErrors v
      = (if ageNotNumber v then ["Age must be a number"] else []) ++
        (if ageOutOfRange v then ["Age must be between 18 and 65"] else []) := by
  unfold ageErrors ageNotNumber ageOutOfRange
  cases v.toNumber <;> simp [JsNum.isNaN, JsNum.lt]

theorem phoneErrors_eq (v : JsVal) :
    phoneErrors v
      = if phoneMalformed v then ["Phone number must be a valid 10-digit number"] else [] := by
  simp [phoneErrors, phoneMalformed, isBlank_eq_not_truthy]

theorem minLengthErrors_eq (label : String) (v : JsVal) :
    minLengthErrors label v
      = if placeTooShort v then [label ++ " must be at least 2 characters long"] else [] := by
  cases v <;> simp [minLengthErrors, placeTooShort]

theorem any_caseInsensitive_eq_contains (s : JsString) :
    (BLOOD_GROUPS.any fun g => decide (s.map lowerUnit = g.map lowerUnit))
      = BLOOD_GROUPS.contains (toUpperCase s) := by
  rw [Bool.eq_iff_iff]
  have h := toUpperCase_mem_iff s
  simp only [caseInsensitiveEq] at h
  simp only [List.any_eq_true, decide_eq_true_eq]
  rw [← h]
  simp

theorem bloodGroupErrors_eq (v : JsVal) :
    bloodGroupErrors v = if groupInvalid v then ["Invalid blood group supplied"] else [] := by
  cases v with
  | str s =>
    simp only [bloodGroupErrors, groupInvalid, any_caseInsensitive_eq_contains]
    by_cases hs : s = [] <;> cases hc : BLOOD_GROUPS.contains (toUpperCase s) <;> simp [hs]
  | undefined => simp [bloodGroupErrors, groupInvalid]
  | null => simp [bloodGroupErrors, groupInvalid]
  | num n => simp [bloodGroupErrors, groupInvalid]

theorem notesErrors_eq (v : JsVal) :
    notesErrors v = if notesTooLong v then ["Notes cannot exceed 500 characters"] else [] := by
  cases v <;> simp [notesErrors, notesTooLong]

/-- The closed form of the validator and the catalogue give the same list. -/
theorem allErrors_eq_cataloguedErrors (p : Payload) : allErrors p = cataloguedErrors p := by
  simp only [allErrors, requiredErrors, cataloguedErrors, filter_map_eq_flatMap, requiredFields,
    errorCatalogue, List.flatMap_cons, List.flatMap_nil, nameErrors_eq, ageErrors_eq,
    phoneErrors_eq, minLengthErrors_eq, bloodGroupErrors_eq, notesErrors_eq,
    isBlank_eq_not_truthy, List.append_assoc, List.append_nil]
  rfl

/-! ### Conversion of strings to numbers -/

theorem floorLog2Aux_spec :
    ∀ (fuel m : Nat), 1 ≤ m → m ≤ fuel →
      2 ^ floorLog2Aux fuel m ≤ m ∧ m < 2 ^ (floorLog2Aux fuel m + 1)
  | 0, m, h1, h2 => by omega
  | fuel + 1, m, h1, h2 => by
    unfold floorLog2Aux
    by_cases hm : m < 2
    · have : m = 1 := by omega
      simp [this]
    · have ih := floorLog2Aux_spec fuel (m / 2) (by omega) (by omega)
      simp only [hm, if_false]
      have h3 : 2 * (m / 2) ≤ m := Nat.mul_div_le m 2
      have h4 : m < 2 * (m / 2) + 2 := by omega
      constructor
      · rw [pow_succ]
        omega
      · rw [pow_succ]
        omega

theorem floorLog2_spec (n : Nat) (h : 1 ≤ n) :
    2 ^ floorLog2 n ≤ n ∧ n < 2 ^ (floorLog2 n + 1) :=
  floorLog2Aux_spec n n h (Nat.le_refl n)

/-- A whole number below `2 ^ 53` is a double: rounding leaves it unchanged. -/
theorem roundToDouble_of_lt (v : Nat) (h : v < 2 ^ 53) : roundToDouble v 1 = JsNum.fin v := by
  by_cases hv : v = 0
  · simp [roundToDouble, hv]
  have hspec := floorLog2_spec v (by omega)
  have hL : floorLog2 v ≤ 52 := by
    by_contra hcon
    have : 2 ^ 53 ≤ 2 ^ floorLog2 v := Nat.pow_le_pow_right (by norm_num) (by omega)
    omega
  have h1 : floorLog2 1 = 0 := by decide
  have he0 : ((floorLog2 v : Int) - (floorLog2 1 : Int)) = (floorLog2 v : Int) := by
    rw [h1]
    simp
  have hneg : (-(floorLog2 v : Int)).toNat = 0 := by omega
  have hcond : ¬(v * 2 ^ (-(floorLog2 v : Int)).toNat < 1 * 2 ^ ((floorLog2 v : Int)).toNat) := by
    rw [hneg]
    simp only [pow_zero, mul_one, Int.toNat_ofNat, one_mul]
    omega
  have hk : (max (floorLog2 v : Int) (-1022) - 52) = -((52 - floorLog2 v : Nat) : Int) := by
    omega
  have hk1 : (-((52 - floorLog2 v : Nat) : Int)).toNat = 0 := by omega
  have hk2 : (- -((52 - floorLog2 v : Nat) : Int)).toNat = 52 - floorLog2 v := by omega
  have hover : ¬(1024 ≤ (floorLog2 v : Int) ∨
      ((floorLog2 v : Int) = 1023 ∧ v * 2 ^ (52 - floorLog2 v) = 2 ^ 53)) := by
    omega
  simp only [roundToDouble, hv, he0, hcond, hk, hk1, hk2, if_false, pow_zero, mul_one,
    Nat.div_one, Nat.mod_one, Nat.mul_zero, Nat.lt_one_iff, if_true, hover, one_ne_zero,
    or_self, Nat.zero_lt_one]
  congr 1
  have hpos : (2 ^ (52 - floorLog2 v) : Nat) ≠ 0 := by positivity
  have := Rat.mkRat_mul_right (n := (v : Int)) (d := 1) hpos
  simpa using this

theorem takeWhile_eq_self_of_forall {α : Type} (f : α → Bool) :
    ∀ (l : List α), (∀ x ∈ l, f x = true) → l.takeWhile f = l ∧ l.dropWhile f = []
  | [], _ => ⟨rfl, rfl⟩
  | a :: l, h => by
    have ha : f a = true := h a (by simp)
    have ih := takeWhile_eq_self_of_forall f l fun x hx => h x (List.mem_cons_of_mem _ hx)
    simp [List.takeWhile_cons, List.dropWhile_cons, ha, ih.1, ih.2]

/-- On a non-empty string of decimal digits whose value is below `2 ^ 53`,
`Number` returns that value. -/
theorem stringToNumber_digits (s : JsString) (hne : s ≠ [])
    (hd : ∀ u ∈ s, 48 ≤ u ∧ u ≤ 57) (hv : decimalValue s < 2 ^ 53) :
    stringToNumber s = JsNum.fin (decimalValue s) := by
  have hdig : ∀ u ∈ s, isDigit u = true := by
    intro u hu
    simpa [isDigit] using hd u hu
  have htrim : trim s = s :=
    trim_of_no_whiteSpace s fun u hu => isDigit_not_whiteSpace u (hdig u hu)
  have hnd : parseNonDecimal s = none := by
    unfold parseNonDecimal
    split
    · rename_i p ds
      have hp := hd p (by simp)
      have h1 : ¬(p = 120 ∨ p = 88) := by omega
      have h2 : ¬(p = 111 ∨ p = 79) := by omega
      have h3 : ¬(p = 98 ∨ p = 66) := by omega
      simp [h1, h2, h3]
    · rfl
  have hsd : parseStrDecimal s = parseUnsignedDecimal s := by
    unfold parseStrDecimal
    split
    · rename_i t
      have := hd 43 (by simp)
      omega
    · rename_i t
      have := hd 45 (by simp)
      omega
    · rfl
  have hinf : s ≠ js "Infinity" := by
    intro h
    have hmem : 73 ∈ s := by
      rw [h]
      decide
    have := hd 73 hmem
    omega
  have he := takeWhile_eq_self_of_forall (fun u => u != 101 && u != 69) s (by
    intro u hu
    have := hd u hu
    have h1 : u ≠ 101 := by omega
    have h2 : u ≠ 69 := by omega
    simp [h1, h2])
  have hp := takeWhile_eq_self_of_forall (fun u => u != 46) s (by
    intro u hu
    have := hd u hu
    have h1 : u ≠ 46 := by omega
    simp [h1])
  have hall : s.all isDigit = true := List.all_eq_true.mpr hdig
  have hm : parseMantissa s = some (decimalValue s, 0) := by
    simp [parseMantissa, hp.1, hp.2, hne, hall]
  have hu : parseUnsignedDecimal s = some (JsNum.fin (decimalValue s)) := by
    simp [parseUnsignedDecimal, hinf, he.1, he.2, hm, roundToDouble_of_lt _ hv]
  simp [stringToNumber, htrim, hne, hnd, hsd, hu]

/-- Values of `Number` on particular strings: whole and fractional literals,
surrounding white space, the empty string, a hexadecimal literal, an exponent,
a sign, text that is no literal, and two literals that round to a bound. -/
theorem stringToNumber_examples :
    stringToNumber (js "30") = JsNum.fin 30 ∧
    stringToNumber (js " 18.5 ") = JsNum.fin (mkRat 37 2) ∧
    stringToNumber (js "") = JsNum.fin 0 ∧
    stringToNumber (js "0x12") = JsNum.fin 18 ∧
    stringToNumber (js "1e2") = JsNum.fin 100 ∧
    stringToNumber (js "-3") = JsNum.fin (-3) ∧
    stringToNumber (js "abc") = JsNum.nan ∧
    stringToNumber (js "12px") = JsNum.nan ∧
    stringToNumber (js "65.00000000000000001") = JsNum.fin 65 ∧
    stringToNumber (js "17.99999999999999999") = JsNum.fin 18 := by
  decide

/-! ## Properties of the validator -/

/-- C1 (as amended): on every payload for which `validatePayload` returns a list,
and for each of the eight required fields, the list contains `<field> is required`
exactly when the field is blank: missing, `null`, the empty string, or a number
that is `0` (or `NaN`); the other fields play no part. -/
theorem required_message_iff_blank (p : Payload) (errs : List String) (field : String)
    (hf : field ∈ requiredFields) (h : validatePayload p = .ok errs) :
    (field ++ " is required") ∈ errs ↔ (p field).blank := by
  obtain ⟨-, rfl⟩ := validatePayload_eq_ok p errs h
  rw [← truthy_eq_false_iff_blank]
  simp only [requiredFields, List.mem_cons, List.mem_singleton, List.not_mem_nil, or_false] at hf
  rcases hf with rfl | rfl | rfl | rfl | rfl | rfl | rfl | rfl <;>
    simp [mem_allErrors, mem_requiredErrors, mem_nameErrors, mem_ageErrors, mem_phoneErrors,
      mem_minLengthErrors, mem_bloodGroupErrors, mem_notesErrors, requiredFields]

/-- C1 (witness): the body with an empty `phoneNumber`. -/
theorem required_message_iff_blank_witness :
    "phoneNumber" ∈ requiredFields ∧
    validatePayload emptyPhonePayload = .ok ["phoneNumber is required"] ∧
    (("phoneNumber" ++ " is required") ∈ ["phoneNumber is required"] ↔
      (emptyPhonePayload "phoneNumber").blank) :=
  ⟨by decide, by decide,
    required_message_iff_blank emptyPhonePayload _ "phoneNumber" (by decide) (by decide)⟩

/-- C1 (counterexample): in the body `{ ..., "age": 0 }` the field `age` is
present with a value that is neither `null` nor the empty string, and the
returned list contains `age is required`. -/
theorem required_message_for_zero_age :
    zeroAgePayload "age" = .num (.fin 0) ∧
    validatePayload zeroAgePayload = .ok ["age is required", "Age must be between 18 and 65"] ∧
    "age is required" ∈ ["age is required", "Age must be between 18 and 65"] := by
  decide

/-- C2 (failing input): in the body `{ "name": 12345, "age": 17, ... }` the age
is the number 17, below 18, yet `validatePayload` returns no list and so no
range error: `payload.name.trim()` raises a `TypeError` before the age check is
reached. With the name a string, the same age is answered with the range error. -/
theorem age_check_not_reached_on_numeric_name :
    (numericNameUnderagePayload "age").toNumber = JsNum.fin 17 ∧
    validatePayload numericNameUnderagePayload = .error "TypeError: trim is not a function" ∧
    validatePayload underagePayload = .ok ["Age must be between 18 and 65"] := by
  decide

/-- The age check on payloads for which `validatePayload` returns a list, with
`Number(payload.age)` the numeric value of the age: a value below 18 or above 65
(the infinities included) puts the range error in the list; a value from 18 to
65, both bounds included, puts neither age error in it; and when the age does
not parse as a number (`NaN`) the list has `Age must be a number` and not the
range error. -/
theorem age_error_by_range (p : Payload) (errs : List String)
    (h : validatePayload p = .ok errs) :
    ((∀ q : ℚ, (p "age").toNumber = .fin q → q < 18 ∨ 65 < q →
        "Age must be between 18 and 65" ∈ errs) ∧
      ((p "age").toNumber = .negInf ∨ (p "age").toNumber = .posInf →
        "Age must be between 18 and 65" ∈ errs)) ∧
    (∀ q : ℚ, (p "age").toNumber = .fin q → 18 ≤ q → q ≤ 65 →
        "Age must be a number" ∉ errs ∧ "Age must be between 18 and 65" ∉ errs) ∧
    ((p "age").toNumber = .nan →
        "Age must be a number" ∈ errs ∧ "Age must be between 18 and 65" ∉ errs) := by
  obtain ⟨-, rfl⟩ := validatePayload_eq_ok p errs h
  have hnum : "Age must be a number" ∈ allErrors p ↔ (p "age").toNumber.isNaN = true := by
    simp [mem_allErrors, mem_requiredErrors, mem_nameErrors, mem_ageErrors, mem_phoneErrors,
      mem_minLengthErrors, mem_bloodGroupErrors, mem_notesErrors, requiredFields]
  have hrange : "Age must be between 18 and 65" ∈ allErrors p ↔
      ((p "age").toNumber.isNaN = false ∧
        ((p "age").toNumber.lt (JsNum.fin 18) = true ∨
          (JsNum.fin 65).lt (p "age").toNumber = true)) := by
    simp [mem_allErrors, mem_requiredErrors, mem_nameErrors, mem_ageErrors, mem_phoneErrors,
      mem_minLengthErrors, mem_bloodGroupErrors, mem_notesErrors, requiredFields]
  rw [hnum, hrange]
  refine ⟨⟨?_, ?_⟩, ?_, ?_⟩
  · intro q hq hlt
    simpa [hq, JsNum.isNaN, JsNum.lt] using hlt
  · rintro (hq | hq) <;> simp [hq, JsNum.isNaN, JsNum.lt]
  · intro q hq h18 h65
    simp [hq, JsNum.isNaN, JsNum.lt, h18, h65]
  · intro hq
    simp [hq, JsNum.isNaN]

/-- The age check at work on the body with `"age": 17` and a name that is a string. -/
theorem age_error_by_range_witness :
    validatePayload underagePayload = .ok ["Age must be between 18 and 65"] ∧
    "Age must be between 18 and 65" ∈ ["Age must be between 18 and 65"] :=
  ⟨by decide,
    (age_error_by_range underagePayload _ (by decide)).1.1 17 (by decide)
      (Or.inl (by norm_num))⟩

/-- The age check on an age written as a string of decimal digits (value below
`2 ^ 53`): the list never has `Age must be a number`, and has the range error
exactly when the value is below 18 or above 65. -/
theorem age_error_for_digit_string (p : Payload) (errs : List String) (s : JsString)
    (h : validatePayload p = .ok errs) (hs : p "age" = .str s) (hne : s ≠ [])
    (hd : ∀ u ∈ s, 48 ≤ u ∧ u ≤ 57) (hv : decimalValue s < 2 ^ 53) :
    "Age must be a number" ∉ errs ∧
    ("Age must be between 18 and 65" ∈ errs ↔ decimalValue s < 18 ∨ 65 < decimalValue s) := by
  obtain ⟨-, rfl⟩ := validatePayload_eq_ok p errs h
  have hnum : (p "age").toNumber = JsNum.fin (decimalValue s) := by
    rw [hs]
    exact stringToNumber_digits s hne hd hv
  constructor
  · simp [mem_allErrors, mem_requiredErrors, mem_nameErrors, mem_ageErrors, mem_phoneErrors,
      mem_minLengthErrors, mem_bloodGroupErrors, mem_notesErrors, requiredFields, hnum,
      JsNum.isNaN]
  · simp [mem_allErrors, mem_requiredErrors, mem_nameErrors, mem_ageErrors, mem_phoneErrors,
      mem_minLengthErrors, mem_bloodGroupErrors, mem_notesErrors, requiredFields, hnum,
      JsNum.isNaN, JsNum.lt]

/-- The age check on ages written as strings: `"30"` and
`"65.00000000000000001"` (which `Number` rounds to 65) give no error, `"17"` the
range error, and `"abc"` the message `Age must be a number`. -/
theorem age_check_on_string_ages :
    validatePayload (withField validPayload "age" (.str (js "30"))) = .ok [] ∧
    validatePayload (withField validPayload "age" (.str (js "65.00000000000000001"))) = .ok [] ∧
    validatePayload (withField validPayload "age" (.str (js "17")))
      = .ok ["Age must be between 18 and 65"] ∧
    validatePayload (withField validPayload "age" (.str (js "abc")))
      = .ok ["Age must be a number"] := by
  decide

/-- C3 (as amended): on every payload for which `validatePayload` returns a list
and whose `phoneNumber` is a non-empty string, the list contains the format
error exactly when the string is not ten decimal digits. -/
theorem phone_format_error_iff (p : Payload) (errs : List String) (s : JsString)
    (h : validatePayload p = .ok errs) (hs : p "phoneNumber" = .str s) (hne : s ≠ []) :
    "Phone number must be a valid 10-digit number" ∈ errs ↔
      ¬(s.length = 10 ∧ ∀ u ∈ s, 48 ≤ u ∧ u ≤ 57) := by
  obtain ⟨-, rfl⟩ := validatePayload_eq_ok p errs h
  rw [← matchesTenDigits_iff]
  simp [mem_allErrors, mem_requiredErrors, mem_nameErrors, mem_ageErrors, mem_phoneErrors,
    mem_minLengthErrors, mem_bloodGroupErrors, mem_notesErrors, requiredFields, hs,
    JsVal.truthy, testTenDigits, hne]

/-- C3 (witness): the body with `"phoneNumber": "98765 4321"`. -/
theorem phone_format_error_iff_witness :
    validatePayload spacedPhonePayload = .ok ["Phone number must be a valid 10-digit number"] ∧
    spacedPhonePayload "phoneNumber" = .str (js "98765 4321") ∧ js "98765 4321" ≠ [] ∧
    ("Phone number must be a valid 10-digit number" ∈
        ["Phone number must be a valid 10-digit number"] ↔
      ¬((js "98765 4321").length = 10 ∧ ∀ u ∈ js "98765 4321", 48 ≤ u ∧ u ≤ 57)) :=
  ⟨by decide, by decide, by decide,
    phone_format_error_iff spacedPhonePayload _ _ (by decide) (by decide) (by decide)⟩

/-- C3 (counterexample): the empty string is not ten digits, and for the body
`{ ..., "phoneNumber": "" }` the returned list does not contain the format error. -/
theorem no_phone_format_error_for_empty_string :
    emptyPhonePayload "phoneNumber" = .str [] ∧
    validatePayload emptyPhonePayload = .ok ["phoneNumber is required"] ∧
    "Phone number must be a valid 10-digit number" ∉ ["phoneNumber is required"] := by
  decide

/-- C4 (as amended): on every payload for which `validatePayload` returns a list
and whose `bloodGroup` is a non-empty string, the list contains
`Invalid blood group supplied` exactly when the string is not equal, case
ignored, to one of the eight groups; and every record the `POST` handler hands
to the store carries the upper-cased string, which is a member of `BLOOD_GROUPS`. -/
theorem blood_group_error_iff (p : Payload) (errs : List String) (s : JsString)
    (h : validatePayload p = .ok errs) (hs : p "bloodGroup" = .str s) (hne : s ≠ []) :
    ("Invalid blood group supplied" ∈ errs ↔ ¬∃ g ∈ BLOOD_GROUPS, caseInsensitiveEq s g) ∧
    ∀ (create : DonorRecord → Except String DocId) (out : PostOutcome) (r : DonorRecord),
      postDonations create p = .ok out → r ∈ out.created →
        r.bloodGroup = toUpperCase s ∧ toUpperCase s ∈ BLOOD_GROUPS := by
  obtain ⟨-, rfl⟩ := validatePayload_eq_ok p errs h
  have hmem : "Invalid blood group supplied" ∈ allErrors p ↔ toUpperCase s ∉ BLOOD_GROUPS := by
    simp [mem_allErrors, mem_requiredErrors, mem_nameErrors, mem_ageErrors, mem_phoneErrors,
      mem_minLengthErrors, mem_bloodGroupErrors, mem_notesErrors, requiredFields, hs, hne]
  refine ⟨by rw [hmem, toUpperCase_mem_iff], ?_⟩
  intro create out r hout hr
  obtain ⟨hv, hb⟩ := postDonations_created create p out r hout hr
  obtain ⟨_, _, group, _, _, _, _, _, _, hg, _, _, _, _, _, _, _, hrg, _⟩ :=
    buildRecord_eq_ok p r hb
  rw [hs] at hg
  cases hg
  refine ⟨hrg, ?_⟩
  by_contra hnot
  have hin : "Invalid blood group supplied" ∈ allErrors p := hmem.mpr hnot
  have hnil : allErrors p = [] := Except.ok.inj (h.symm.trans hv)
  rw [hnil] at hin
  cases hin

/-- C4 (witness): the body with `"bloodGroup": "ab-"`. -/
theorem blood_group_error_iff_witness :
    validatePayload lowerCaseGroupPayload = .ok [] ∧
    lowerCaseGroupPayload "bloodGroup" = .str (js "ab-") ∧ js "ab-" ≠ [] ∧
    ("Invalid blood group supplied" ∈ ([] : List String) ↔
      ¬∃ g ∈ BLOOD_GROUPS, caseInsensitiveEq (js "ab-") g) :=
  ⟨by decide, by decide, by decide,
    (blood_group_error_iff lowerCaseGroupPayload _ _ (by decide) (by decide) (by decide)).1⟩

/-- C4 (counterexample): the empty string is equal to none of the eight groups,
and for the body `{ ..., "bloodGroup": "" }` the returned list does not contain
`Invalid blood group supplied`. -/
theorem no_blood_group_error_for_empty_string :
    emptyBloodGroupPayload "bloodGroup" = .str [] ∧
    (∀ g ∈ BLOOD_GROUPS, ¬caseInsensitiveEq [] g) ∧
    validatePayload emptyBloodGroupPayload = .ok ["bloodGroup is required"] ∧
    "Invalid blood group supplied" ∉ ["bloodGroup is required"] := by
  refine ⟨by decide, ?_, by decide, by decide⟩
  intro g hg
  simp only [BLOOD_GROUPS, List.mem_cons, List.mem_singleton, List.not_mem_nil, or_false] at hg
  rcases hg with rfl | rfl | rfl | rfl | rfl | rfl | rfl | rfl <;>
    simp [caseInsensitiveEq, js, utf16]

/-- C5 (failing input): on the body `{ "name": 12345, ... }`, whose other fields
are valid, `validatePayload` returns no list: the call `payload.name.trim()`
raises a `TypeError`. -/
theorem validatePayload_throws_on_numeric_name :
    validatePayload numericNamePayload = .error "TypeError: trim is not a function" := by
  decide

/-! ## Properties of the `POST` handler -/

/-- C6 (as amended): every record the `POST` handler passes to the store
satisfies the field constraints of the donor record, the age being a number
from 18 to 65 (a whole number or not): name and the four place fields of trimmed
length at least 2, a phone number of exactly ten digits, an upper-case blood
group of the enumeration, and notes absent or of length at most 500. -/
theorem created_record_wellFormed (create : DonorRecord → Except String DocId) (p : Payload)
    (out : PostOutcome) (r : DonorRecord) (h : postDonations create p = .ok out)
    (hr : r ∈ out.created) : r.WellFormed := by
  obtain ⟨hv, hb⟩ := postDonations_created create p out r h hr
  obtain ⟨-, hnil⟩ := validatePayload_eq_ok p [] hv
  have hno : ∀ m, m ∉ allErrors p := by
    intro m hm
    rw [← hnil] at hm
    cases hm
  obtain ⟨name, phone, group, country, state, district, city, hn, hp, hg, hc, hs, hd, hci,
    rn, ra, rp, rg, rc, rs, rd, rci, rnotes⟩ := buildRecord_eq_ok p r hb
  have hreq : ∀ f ∈ requiredFields, (p f).truthy = true := by
    intro f hf
    have := hno (f ++ " is required")
    simp only [mem_allErrors, mem_requiredErrors, not_or, not_exists, not_and] at this
    have h1 := this.1 f hf
    cases ht : (p f).truthy
    · exact absurd rfl (h1 ht)
    · rfl
  have minLen : ∀ (label f : String) (s : JsString), f ∈ requiredFields → p f = .str s →
      (label ++ " must be at least 2 characters long") ∉ minLengthErrors label (p f) →
      2 ≤ (trim (trim s)).length := by
    intro label f s hf hfs hnot
    have ht := hreq f hf
    rw [hfs] at ht hnot
    have hne : s ≠ [] := by
      intro h0
      simp [h0, JsVal.truthy] at ht
    rw [trim_trim]
    apply isLength_two_le
    simp only [mem_minLengthErrors, true_and, not_exists, not_and] at hnot
    have := hnot s rfl hne
    simpa using this
  refine ⟨?_, ?_, ?_, ?_, ?_, ?_, ?_, ?_, ?_⟩
  · have ht := hreq "name" (by decide)
    have h1 := hno "Name must be at least 2 characters long"
    simp only [mem_allErrors, not_or] at h1
    have h2 := h1.2.1
    rw [hn] at ht h2
    have hne : name ≠ [] := by
      intro h0
      simp [h0, JsVal.truthy] at ht
    simp only [mem_nameErrors, true_and, not_exists, not_and] at h2
    have := h2 name rfl hne
    rw [rn, trim_trim]
    omega
  · have h1 := hno "Age must be a number"
    have h2 := hno "Age must be between 18 and 65"
    simp only [mem_allErrors, not_or] at h1 h2
    have h1' := h1.2.2.1
    have h2' := h2.2.2.1
    rw [ra]
    cases hnum : (p "age").toNumber with
    | nan => simp [mem_ageErrors, hnum, JsNum.isNaN] at h1'
    | posInf => simp [mem_ageErrors, hnum, JsNum.isNaN, JsNum.lt] at h2'
    | negInf => simp [mem_ageErrors, hnum, JsNum.isNaN, JsNum.lt] at h2'
    | fin q =>
      simp [mem_ageErrors, hnum, JsNum.isNaN, JsNum.lt] at h2'
      exact ⟨q, rfl, h2'.1, h2'.2⟩
  · have ht := hreq "phoneNumber" (by decide)
    have h1 := hno "Phone number must be a valid 10-digit number"
    simp only [mem_allErrors, not_or] at h1
    have h2 := h1.2.2.2.1
    rw [hp] at ht h2
    simp only [mem_phoneErrors, true_and, ht, testTenDigits, Bool.not_eq_false] at h2
    have hdig := (matchesTenDigits_iff phone).mp h2
    have htrim : trim phone = phone := by
      apply trim_of_no_whiteSpace
      intro u hu
      apply isDigit_not_whiteSpace
      simpa [isDigit] using hdig.2 u hu
    rw [rp, htrim]
    exact hdig
  · have ht := hreq "bloodGroup" (by decide)
    have h1 := hno "Invalid blood group supplied"
    simp only [mem_allErrors, not_or] at h1
    have h2 := h1.2.2.2.2.2.2.2.2.1
    rw [hg] at ht h2
    have hne : group ≠ [] := by
      intro h0
      simp [h0, JsVal.truthy] at ht
    simp only [mem_bloodGroupErrors, true_and, not_exists, not_and, not_not] at h2
    rw [rg]
    exact ⟨h2 group rfl hne, toUpperCase_toUpperCase group⟩
  · rw [rc]
    have h1 := hno ("Country" ++ " must be at least 2 characters long")
    simp only [mem_allErrors, not_or] at h1
    exact minLen "Country" "country" country (by decide) hc h1.2.2.2.2.1
  · rw [rs]
    have h1 := hno ("State" ++ " must be at least 2 characters long")
    simp only [mem_allErrors, not_or] at h1
    exact minLen "State" "state" state (by decide) hs h1.2.2.2.2.2.1
  · rw [rd]
    have h1 := hno ("District" ++ " must be at least 2 characters long")
    simp only [mem_allErrors, not_or] at h1
    exact minLen "District" "district" district (by decide) hd h1.2.2.2.2.2.2.1
  · rw [rci]
    have h1 := hno ("City" ++ " must be at least 2 characters long")
    simp only [mem_allErrors, not_or] at h1
    exact minLen "City" "city" city (by decide) hci h1.2.2.2.2.2.2.2.1
  · intro n hnn
    obtain ⟨s, hs', rfl⟩ := rnotes n hnn
    have h1 := hno "Notes cannot exceed 500 characters"
    simp only [mem_allErrors, not_or] at h1
    have h2 := h1.2.2.2.2.2.2.2.2.2
    rw [hs'] at h2
    simp only [mem_notesErrors, true_and, not_exists, not_and] at h2
    have := h2 s rfl
    have := trim_length_le s
    omega

/-- C6 (witness): the record built from `validPayload` and accepted by the store. -/
theorem created_record_wellFormed_witness :
    postDonations acceptingStore validPayload
        = .ok ⟨201, ⟨"success", "Donor profile created successfully", none, some 1⟩,
            [validRecord]⟩ ∧
    validRecord ∈ [validRecord] ∧ validRecord.WellFormed :=
  ⟨by decide, by decide,
    created_record_wellFormed acceptingStore validPayload _ validRecord
      (by decide : postDonations acceptingStore validPayload
        = .ok ⟨201, ⟨"success", "Donor profile created successfully", none, some 1⟩,
            [validRecord]⟩) (by decide)⟩

/-- C6 (counterexample): for the body `{ ..., "age": 18.5 }` the validator
returns the empty list and the handler passes to the store a record whose age,
`37/2`, is not a whole number. -/
theorem fractional_age_reaches_store :
    validatePayload fractionalAgePayload = .ok [] ∧
    postDonations acceptingStore fractionalAgePayload
        = .ok ⟨201, ⟨"success", "Donor profile created successfully", none, some 1⟩,
            [fractionalAgeRecord]⟩ ∧
    fractionalAgeRecord.age = .fin (mkRat 37 2) ∧ (mkRat 37 2).den = 2 ∧
    ∀ n : ℤ, fractionalAgeRecord.age ≠ .fin n := by
  refine ⟨by decide, by decide, by decide, by decide, ?_⟩
  intro n hn
  have h1 : JsNum.fin (mkRat 37 2) = JsNum.fin n := hn
  have h2 : (mkRat 37 2 : ℚ) = n := JsNum.fin.inj h1
  have h3 := congrArg Rat.den h2
  rw [Rat.den_intCast] at h3
  revert h3
  decide

/-- C7 (failing input): for the body `{ ..., "phoneNumber": 9876543210 }`, a
number, the validator returns the empty list, yet the handler never calls the
store and answers 500: `payload.phoneNumber.trim()` raises inside the `try` block. -/
theorem post_numeric_phone_answers_500 (create : DonorRecord → Except String DocId) :
    validatePayload numericPhonePayload = .ok [] ∧
    postDonations create numericPhonePayload
      = .ok ⟨500, ⟨"error", "We were unable to save your details. Please try again shortly.",
          none, none⟩, []⟩ := by
  have hv : validatePayload numericPhonePayload = .ok [] := by decide
  have hb : buildRecord numericPhonePayload = .error "TypeError: trim is not a function" := by
    decide
  refine ⟨hv, ?_⟩
  simp [postDonations, hv, hb, bind, Except.bind, pure, Except.pure]

/-- When the validator returns a non-empty list, the handler answers 422 with
that whole list and does not call the store. -/
theorem postDonations_invalid (create : DonorRecord → Except String DocId) (p : Payload)
    (errs : List String) (h : validatePayload p = .ok errs) (hne : errs ≠ []) :
    postDonations create p = .ok ⟨422, ⟨"error", "Validation failed", some errs, none⟩, []⟩ := by
  cases errs with
  | nil => exact absurd rfl hne
  | cons m ms => simp [postDonations, h, bind, Except.bind, pure, Except.pure]

/-- When the validator returns the empty list and the record is built, the
handler calls the store once with that record, and answers 201 with the new
identifier if the store accepts it and 500 if the store fails. -/
theorem postDonations_valid (create : DonorRecord → Except String DocId) (p : Payload)
    (r : DonorRecord) (h : validatePayload p = .ok []) (hb : buildRecord p = .ok r) :
    (∀ donorId, create r = .ok donorId →
      postDonations create p
        = .ok ⟨201, ⟨"success", "Donor profile created successfully", none, some donorId⟩,
            [r]⟩) ∧
    (∀ e, create r = .error e →
      postDonations create p
        = .ok ⟨500, ⟨"error", "We were unable to save your details. Please try again shortly.",
            none, none⟩, [r]⟩) := by
  constructor
  · intro donorId hc
    simp [postDonations, h, hb, hc, bind, Except.bind, pure, Except.pure]
  · intro e hc
    simp [postDonations, h, hb, hc, bind, Except.bind, pure, Except.pure]

/-! ## Properties of the `GET` handlers -/

/-- C8 (as amended): in the handler of `src/server.js`, a missing or empty
`bloodGroup` parameter is answered with 400 and a non-empty one whose upper-cased
form is not in the enumeration with 422, in both cases without a query to the
store; otherwise the store is queried once, for the upper-cased group with limit
10, and the answer is 200 with the donors found, or 500 if the query fails. -/
theorem getDonations_responses (find : FindQuery → Except String (List JsonDoc))
    (bloodGroup : Option JsString) :
    ((bloodGroup = none ∨ bloodGroup = some []) →
      (getDonations find bloodGroup).status = 400 ∧ (getDonations find bloodGroup).queries = []) ∧
    (∀ s, bloodGroup = some s → s ≠ [] → toUpperCase s ∉ BLOOD_GROUPS →
      (getDonations find bloodGroup).status = 422 ∧ (getDonations find bloodGroup).queries = []) ∧
    (∀ s, bloodGroup = some s → s ≠ [] → toUpperCase s ∈ BLOOD_GROUPS →
      (getDonations find bloodGroup).queries = [lookupQuery (toUpperCase s)] ∧
      (lookupQuery (toUpperCase s)).bloodGroup = toUpperCase s ∧
      (lookupQuery (toUpperCase s)).limit = 10 ∧
      (∀ donors, find (lookupQuery (toUpperCase s)) = .ok donors →
        (getDonations find bloodGroup).status = 200 ∧
        (getDonations find bloodGroup).body = ⟨"success", none, some donors⟩) ∧
      (∀ e, find (lookupQuery (toUpperCase s)) = .error e →
        (getDonations find bloodGroup).status = 500)) := by
  refine ⟨?_, ?_, ?_⟩
  · rintro (rfl | rfl) <;> simp [getDonations]
  · rintro s rfl hne hnot
    simp [getDonations, hne, hnot]
  · rintro s rfl hne hmem
    refine ⟨?_, rfl, rfl, ?_, ?_⟩
    · cases hf : find (lookupQuery (toUpperCase s)) <;> simp [getDonations, hne, hmem, hf]
    · intro donors hf
      simp [getDonations, hne, hmem, hf]
    · intro e hf
      simp [getDonations, hne, hmem, hf]

/-- C8 (witness): the lookups `?bloodGroup=Z+` and `?bloodGroup=o+` on `sampleStore`. -/
theorem getDonations_responses_witness :
    (toUpperCase (js "Z+") ∉ BLOOD_GROUPS ∧
      (getDonations sampleFind (some (js "Z+"))).status = 422 ∧
      (getDonations sampleFind (some (js "Z+"))).queries = []) ∧
    (toUpperCase (js "o+") ∈ BLOOD_GROUPS ∧
      (getDonations sampleFind (some (js "o+"))).queries = [lookupQuery (js "O+")]) :=
  ⟨⟨by decide,
      (getDonations_responses sampleFind (some (js "Z+"))).2.1 (js "Z+") rfl (by decide)
        (by decide)⟩,
    by decide,
    ((getDonations_responses sampleFind (some (js "o+"))).2.2 (js "o+") rfl (by decide)
      (by decide)).1⟩

/-- C8 (counterexample): with `?bloodGroup=` the parameter is present, its
upper-cased form (the empty string) is not in the enumeration, and the answer is
400, not 422. -/
theorem get_empty_group_answers_400 :
    toUpperCase [] ∉ BLOOD_GROUPS ∧
    (getDonations sampleFind (some [])).status = 400 ∧
    (getDonations sampleFind (some [])).status ≠ 422 := by
  decide

/-- C9: with the store a finite list of documents with distinct `createdAt`,
the lookup of `src/server.js` for a group of the enumeration answers with the
projection of documents that all belong to the store and have that group, in
strictly decreasing order of `createdAt`; every matching document left out is
older than every one returned; their number is the smaller of 10 and the number
of matching documents (so none when nothing matches, and 10 when 11 match); and
they are the first documents of any arrangement of the matching documents by
decreasing `createdAt`. -/
theorem lookup_returns_most_recent (store : List DonorDoc) (g : JsString)
    (hg : g ∈ BLOOD_GROUPS) (hd : (store.map DonorDoc.createdAt).Nodup) :
    (getDonations (fun q => .ok (runFind store q)) (some g)).body.donors
      = some ((findDocs store (lookupQuery g)).map fun d =>
          selectFields (lookupQuery g).select d.toJson) ∧
    (∀ d ∈ findDocs store (lookupQuery g), d ∈ store ∧ d.bloodGroup = g) ∧
    (findDocs store (lookupQuery g)).Pairwise (fun a b => b.createdAt < a.createdAt) ∧
    (∀ d ∈ store, d.bloodGroup = g → d ∉ findDocs store (lookupQuery g) →
      ∀ r ∈ findDocs store (lookupQuery g), d.createdAt < r.createdAt) ∧
    (findDocs store (lookupQuery g)).length
      = min 10 (store.filter fun d => d.bloodGroup == g).length ∧
    ((store.filter fun d => d.bloodGroup == g) = [] → findDocs store (lookupQuery g) = []) ∧
    ((store.filter fun d => d.bloodGroup == g).length = 11 →
      (findDocs store (lookupQuery g)).length = 10) ∧
    (∀ l : List DonorDoc, l.Perm (store.filter fun d => d.bloodGroup == g) →
      l.Pairwise (fun a b => b.createdAt < a.createdAt) →
      findDocs store (lookupQuery g) = l.take (min 10 l.length)) := by
  have hperm := List.perm_insertionSort newerFirst (store.filter fun d => d.bloodGroup == g)
  have hstrict := lookup_sorted_strict store g hd
  have hlen : (findDocs store (lookupQuery g)).length
      = min 10 (store.filter fun d => d.bloodGroup == g).length := by
    rw [findDocs_lookupQuery, List.length_take, List.length_insertionSort]
  refine ⟨?_, ?_, ?_, ?_, hlen, ?_, ?_, ?_⟩
  · have hup : toUpperCase g = g := toUpperCase_of_mem_BLOOD_GROUPS g hg
    have hne : g ≠ [] := by
      rintro rfl
      revert hg
      decide
    simp [getDonations, hne, hup, hg, runFind]
  · intro d hdm
    rw [findDocs_lookupQuery] at hdm
    have h1 := hperm.mem_iff.mp (List.mem_of_mem_take hdm)
    simpa using h1
  · rw [findDocs_lookupQuery]
    exact hstrict.sublist (List.take_sublist _ _)
  · intro d hds hdg hnot r hr
    rw [findDocs_lookupQuery] at hnot hr
    have hmem : d ∈ (store.filter fun d => d.bloodGroup == g).insertionSort newerFirst :=
      hperm.mem_iff.mpr (by simp [hds, hdg])
    rw [← List.take_append_drop 10
      ((store.filter fun d => d.bloodGroup == g).insertionSort newerFirst)] at hmem hstrict
    have hdrop := (List.mem_append.mp hmem).resolve_left hnot
    exact (List.pairwise_append.mp hstrict).2.2 r hr d hdrop
  · intro h0
    apply List.eq_nil_of_length_eq_zero
    rw [hlen, h0]
    rfl
  · intro h11
    rw [hlen, h11]
    rfl
  · intro l hl hsl
    have heq : l = (store.filter fun d => d.bloodGroup == g).insertionSort newerFirst := by
      apply sorted_newest_first_unique (store.filter fun d => d.bloodGroup == g) _ _
        (hd.sublist ((List.filter_sublist store).map _)) hl hperm
      · exact hsl.imp fun h => Nat.le_of_lt h
      · exact List.sorted_insertionSort newerFirst _
    rw [findDocs_lookupQuery, ← heq]
    simp [List.take_eq_take]

/-- C9 (witness): the lookup of `O+` on `sampleStore` returns its two `O+`
donors, the one registered last first. -/
theorem lookup_returns_most_recent_witness :
    js "O+" ∈ BLOOD_GROUPS ∧ (sampleStore.map DonorDoc.createdAt).Nodup ∧
    findDocs sampleStore (lookupQuery (js "O+")) = [sampleDoc 3 "O+" 3000, sampleDoc 1 "O+" 1000] ∧
    (findDocs sampleStore (lookupQuery (js "O+"))).Pairwise
      (fun a b => b.createdAt < a.createdAt) :=
  ⟨by decide, by decide, by decide,
    (lookup_returns_most_recent sampleStore (js "O+") (by decide) (by decide)).2.2.1⟩

/-- C10 (failing input): on `sampleStore` the lookup of `O+` through the handler
of `src/backend/server.js` answers with whole documents: each carries
`phoneNumber`, `country`, `district` and `notes`, and the first one shows the
donor's phone number. -/
theorem backend_lookup_exposes_private_fields :
    ((backendGetDonations sampleFind (some (js "O+"))).body.donors.getD []).map
        (fun doc => doc.map Prod.fst)
      = [["_id", "name", "age", "phoneNumber", "bloodGroup", "country", "state", "district",
            "city", "notes", "createdAt", "updatedAt", "__v"],
          ["_id", "name", "age", "phoneNumber", "bloodGroup", "country", "state", "district",
            "city", "notes", "createdAt", "updatedAt", "__v"]] ∧
    ("phoneNumber", JsVal.str (js "9876543210")) ∈
      (((backendGetDonations sampleFind (some (js "O+"))).body.donors.getD []).head?).getD [] := by
  decide

/-- The handler of `src/server.js` shows display fields only: whatever the store
holds, no document of its response carries a field outside `_id`, `name`, `age`,
`city`, `state`, `bloodGroup`, `createdAt`. -/
theorem lookup_shows_display_fields_only (store : List DonorDoc) (bloodGroup : Option JsString)
    (docs : List JsonDoc)
    (h : (getDonations (fun q => .ok (runFind store q)) bloodGroup).body.donors = some docs) :
    ∀ doc ∈ docs, ∀ kv ∈ doc, kv.1 ∈ displayFields ∧ kv.1 ∉ privateFields := by
  cases bloodGroup with
  | none => simp [getDonations] at h
  | some s =>
    by_cases hs : s = []
    · simp [getDonations, hs] at h
    · by_cases hm : toUpperCase s ∈ BLOOD_GROUPS
      · simp [getDonations, hs, hm] at h
        subst h
        intro doc hdoc kv hkv
        simp only [runFind, List.mem_map] at hdoc
        obtain ⟨d, -, rfl⟩ := hdoc
        exact mem_selectFields_lookup _ kv _ hkv
      · simp [getDonations, hs, hm] at h

/-- On `sampleStore` the handler of `src/server.js` answers the lookup of `O+`
with the display fields of the two donors. -/
theorem lookup_fields_on_sampleStore :
    ((getDonations sampleFind (some (js "O+"))).body.donors.getD []).map
        (fun doc => doc.map Prod.fst)
      = [["_id", "name", "age", "bloodGroup", "state", "city", "createdAt"],
          ["_id", "name", "age", "bloodGroup", "state", "city", "createdAt"]] := by
  decide

/-! ## The order of the messages -/

/-- C11 (as amended): on every payload for which `validatePayload` returns a
list, the list is made of the messages of `errorCatalogue` whose rule is
violated, in the catalogue's fixed order: the eight `<field> is required`
messages (for a field that is missing, `null`, empty, or the number `0` or
`NaN`), the name-length error, the two age errors, the phone format error, the
four place-length errors, the blood-group error, the notes-length error. The
messages of the catalogue are pairwise distinct, so none appears twice; a
message is in the list exactly when its own condition holds; and the two age
errors never appear together. -/
theorem validatePayload_eq_cataloguedErrors (p : Payload) (errs : List String)
    (h : validatePayload p = .ok errs) :
    errs = cataloguedErrors p ∧
    ((errorCatalogue p).map fun e => e.1).Nodup ∧
    errs.Sublist ((errorCatalogue p).map fun e => e.1) ∧
    errs.Nodup ∧
    (∀ m, m ∈ errs ↔ (m, true) ∈ errorCatalogue p) ∧
    ¬("Age must be a number" ∈ errs ∧ "Age must be between 18 and 65" ∈ errs) := by
  obtain ⟨-, rfl⟩ := validatePayload_eq_ok p errs h
  have hnodup : ((errorCatalogue p).map fun e => e.1).Nodup := by
    simp only [errorCatalogue, List.map_cons, List.map_nil]
    decide
  have hsub : (cataloguedErrors p).Sublist ((errorCatalogue p).map fun e => e.1) :=
    (List.filter_sublist _).map _
  have hmem : ∀ m, m ∈ cataloguedErrors p ↔ (m, true) ∈ errorCatalogue p := by
    intro m
    simp only [cataloguedErrors, List.mem_map, List.mem_filter]
    constructor
    · rintro ⟨⟨m', b⟩, ⟨hin, hb⟩, rfl⟩
      simp only at hb
      subst hb
      exact hin
    · intro hin
      exact ⟨(m, true), ⟨hin, rfl⟩, rfl⟩
  rw [allErrors_eq_cataloguedErrors]
  refine ⟨rfl, hnodup, hsub, hnodup.sublist hsub, hmem, ?_⟩
  rintro ⟨h1, h2⟩
  rw [hmem] at h1 h2
  simp [errorCatalogue, ageNotNumber] at h1
  simp [errorCatalogue, ageOutOfRange, h1] at h2

/-- C11 (witness): for the body `{ "name": "A", "age": 17, ... }` the list is the
name-length error followed by the age-range error. -/
theorem validatePayload_eq_cataloguedErrors_witness :
    validatePayload shortNameUnderagePayload
      = .ok ["Name must be at least 2 characters long", "Age must be between 18 and 65"] ∧
    ["Name must be at least 2 characters long", "Age must be between 18 and 65"]
      = cataloguedErrors shortNameUnderagePayload :=
  ⟨by decide,
    (validatePayload_eq_cataloguedErrors shortNameUnderagePayload _ (by decide)).1⟩

/-- C11 (counterexample): in the body `{ "age": 0 }` the field `age` is given, is
not `null` and is not the empty string, so the rule "must be present and
non-empty" holds for it; the returned list nevertheless has the entry
`age is required`, between those of the seven fields that are missing and
before the age-range error. -/
theorem required_entry_for_given_zero_age :
    onlyZeroAgePayload "age" ≠ .undefined ∧ onlyZeroAgePayload "age" ≠ .null ∧
    onlyZeroAgePayload "age" ≠ .str [] ∧
    validatePayload onlyZeroAgePayload
      = .ok ["name is required", "age is required", "phoneNumber is required",
          "bloodGroup is required", "country is required", "state is required",
          "district is required", "city is required", "Age must be between 18 and 65"] ∧
    "age is required" ∈ ["name is required", "age is required", "phoneNumber is required",
          "bloodGroup is required", "country is required", "state is required",
          "district is required", "city is required", "Age must be between 18 and 65"] := by
  decide

/-- The two length rules do not count alike: for the same one-character,
two-code-unit value the name check (`.length`) reports nothing and the country
check (`validator.isLength`) reports its error. -/
theorem length_rules_differ_on_surrogate_pair :
    emojiNamePayload "name" = emojiNamePayload "country" ∧
    validatePayload emojiNamePayload = .ok ["Country must be at least 2 characters long"] := by
  decide

end BloodDonation
